import Mathlib

/-!
Verification of the jsonui-test-runner validation engine.

This file gives a shallow embedding of the validation subsystem of the
repository (package `test_tools/jsonui_test_cli`) and proves properties of
it.  Two implementations of the validator exist in the source:

* the monolithic `jsonui_test_cli/validator.py` (class `TestValidator`),
  embedded below in namespace `Validator`;
* the modular `jsonui_test_cli/validation/` package (`step.py`, `screen.py`,
  `flow.py`, `validator.py`, `models.py`), embedded in namespace
  `Validation`.

JSON documents are modelled by the inductive type `JValue`; Python `dict`s
become association lists in key-insertion order, Python truthiness becomes
`JValue.truthy`, and the filesystem consulted by the reference resolver
becomes an explicit oracle `List String → Bool` over paths modelled as
component lists.  Validators are pure functions producing the ordered
error/warning lists that the Python code accumulates by mutation; since no
validator ever reads the accumulated result, appending output lists is
equivalent to the source's in-place mutation.
-/

/-- A JSON value as produced by `json.load` in the source:  strings,
integers, floats, booleans, `None`, arrays and objects.  Objects keep the
key insertion order, as Python dicts do. -/
inductive JValue where
  | str (s : String)
  | int (n : Int)
  | float (q : Rat)
  | bool (b : Bool)
  | null
  | arr (items : List JValue)
  | obj (fields : List (String × JValue))

/-- Association-list lookup mirroring `d[k]` / `d.get(k)` on a Python dict
(first binding wins; JSON object keys are unique in practice). -/
def jLookup (k : String) : List (String × JValue) → Option JValue
  | [] => none
  | (k2, v) :: rest => if k2 = k then some v else jLookup k rest

/-- `value.get(k)` on a JSON value.  Only objects have keys; the validators
under study only ever index into values that are dicts in the exercised
fragment (indexing a non-dict raises `TypeError` in Python). -/
def jGet (k : String) : JValue → Option JValue
  | .obj fields => jLookup k fields
  | _ => none

/-- `d.get(k, default)`. -/
def jGetD (v : JValue) (k : String) (dflt : JValue) : JValue :=
  (jGet k v).getD dflt

/-- `k in d` for an object (and `False` for non-objects, which would either
answer a different question or raise in Python; the validators only apply
this to dict-shaped steps in the fragment modelled here). -/
def hasKey (k : String) (v : JValue) : Bool :=
  (jGet k v).isSome

/-- `d.keys()` in insertion order. -/
def jKeys : JValue → List String
  | .obj fields => fields.map Prod.fst
  | _ => []

/-- Python truthiness of a JSON value (`if x:`). -/
def JValue.truthy : JValue → Bool
  | .str s => decide (s ≠ "")
  | .int n => decide (n ≠ 0)
  | .float q => decide (q ≠ 0)
  | .bool b => b
  | .null => false
  | .arr items => !items.isEmpty
  | .obj fields => !fields.isEmpty

/-- Truthiness of `d.get(k)`: `None` (absent key) is falsy. -/
def jTruthy (o : Option JValue) : Bool :=
  match o with
  | none => false
  | some v => v.truthy

/-- Iterating a value expected to be a JSON array (`for x in v`).  The
validators iterate only over lists in the fragment modelled here; iterating
other Python values either yields keys/characters or raises, and is not
exercised by any theorem below. -/
def pyEnumerate : JValue → List JValue
  | .arr items => items
  | _ => []

/-- `str(value)` as used by f-string interpolation in messages, for the
scalar values that actually reach an interpolation site in the fragment
modelled here.  (Containers would print their Python `repr`; no theorem
below interpolates a container.) -/
def pyStr : JValue → String
  | .str s => s
  | .int n => toString n
  | .float q => toString q
  | .bool b => if b then "True" else "False"
  | .null => "None"
  | .arr _ => "[...]"
  | .obj _ => "{...}"

/-- `type(value).__name__`. -/
def pyTypeName : JValue → String
  | .str _ => "str"
  | .int _ => "int"
  | .float _ => "float"
  | .bool _ => "bool"
  | .null => "NoneType"
  | .arr _ => "list"
  | .obj _ => "dict"

/-- `isinstance(v, int)`: Python `bool` is a subclass of `int`. -/
def pyIsInt : JValue → Bool
  | .int _ => true
  | .bool _ => true
  | _ => false

/-- The integer value of a value satisfying `pyIsInt` (`True == 1`,
`False == 0`). -/
def pyIntVal : JValue → Int
  | .int n => n
  | .bool b => if b then 1 else 0
  | _ => 0

/-- `isinstance(v, (str, int, float, bool))`: the primitive argument
values accepted by the validators. -/
def pyIsPrimitive : JValue → Bool
  | .str _ => true
  | .int _ => true
  | .float _ => true
  | .bool _ => true
  | _ => false

/-- The whitespace characters stripped by Python `str.strip()` (ASCII
subset; the documents under study contain no exotic Unicode whitespace). -/
def pyIsSpace (c : Char) : Bool :=
  c = ' ' ∨ c = '\t' ∨ c = '\n' ∨ c = '\r' ∨ c = Char.ofNat 11 ∨ c = Char.ofNat 12

/-- Python `s.strip()`. -/
def pyStrip (s : String) : String :=
  ((s.data.dropWhile pyIsSpace).reverse.dropWhile pyIsSpace).reverse.asString

/-- A filesystem path, as the components of a `pathlib.Path`. -/
abbrev PathT := List String

/-- `str(path)`: components joined by `/`. -/
def pathStr (p : PathT) : String :=
  String.intercalate "/" p

/-- `path.name` — the final component (`""` for an empty path). -/
def pathName (p : PathT) : String :=
  p.getLastD ""

namespace schema

/-!
Embedding of `jsonui_test_cli/schema.py`.  The validators consult only the
`"required"` parameter list of each action/assertion entry, so the tables
are embedded as name ↦ required-parameters maps (the `description` and
`optional` fields of the source tables are never read by validation code).
-/

/-- `SUPPORTED_ACTIONS`, projected to each entry's `required` list. -/
def SUPPORTED_ACTIONS : List (String × List String) :=
  [("tap", ["id"]),
   ("doubleTap", ["id"]),
   ("longPress", ["id"]),
   ("input", ["id", "value"]),
   ("clear", ["id"]),
   ("scroll", ["id", "direction"]),
   ("swipe", ["id", "direction"]),
   ("waitFor", ["id"]),
   ("waitForAny", ["ids"]),
   ("wait", ["ms"]),
   ("back", []),
   ("screenshot", ["name"]),
   ("alertTap", ["button"]),
   ("selectOption", ["id"])]

/-- `SUPPORTED_ASSERTIONS`, projected to each entry's `required` list. -/
def SUPPORTED_ASSERTIONS : List (String × List String) :=
  [("visible", ["id"]),
   ("notVisible", ["id"]),
   ("enabled", ["id"]),
   ("disabled", ["id"]),
   ("text", ["id"]),
   ("count", ["id", "equals"])]

/-- `VALID_DIRECTIONS`. -/
def VALID_DIRECTIONS : List String := ["up", "down", "left", "right"]

/-- `VALID_TOP_LEVEL_KEYS`. -/
def VALID_TOP_LEVEL_KEYS : List String :=
  ["type", "source", "metadata", "platform", "initialState",
   "setup", "teardown", "cases", "sources", "steps", "checkpoints"]

/-- `VALID_CASE_KEYS`.  Note: the source list omits `descriptionFile` and
`args`, although both keys are handled specially by the case validators. -/
def VALID_CASE_KEYS : List String :=
  ["name", "description", "skip", "platform", "initialState", "steps"]

/-- `VALID_STEP_KEYS`. -/
def VALID_STEP_KEYS : List String :=
  ["action", "assert", "id", "ids", "value", "direction",
   "duration", "timeout", "ms", "name", "equals", "contains",
   "path", "amount", "screen", "text", "button", "label", "index"]

/-- Modelled from the spec: `VALID_SOURCE_KEYS` is imported by
`validation/screen.py` from `..schema` but its definition is missing from
the provided `schema.py`; the spec lists it among the Schema Registry
tables without enumerating its members.  Modelled from the repository's
example documents, which use a `source.layout` key.  No theorem below
depends on its members. -/
def VALID_SOURCE_KEYS : List String := ["layout"]

/-- Lookup of an action's required parameters (`SUPPORTED_ACTIONS[a]`). -/
def actionRequired (a : String) : Option (List String) :=
  (SUPPORTED_ACTIONS.find? (fun e => e.1 = a)).map Prod.snd

/-- Lookup of an assertion's required parameters. -/
def assertionRequired (a : String) : Option (List String) :=
  (SUPPORTED_ASSERTIONS.find? (fun e => e.1 = a)).map Prod.snd

end schema

/-!
Embedding of `validation/models.py` (the monolithic `validator.py` contains
a textually identical copy of both dataclasses).
-/

/-- `ValidationMessage`. -/
structure ValidationMessage where
  path : String
  message : String
  level : String
deriving DecidableEq, Repr

/-- `ValidationResult` (the `test_data` payload field is not modelled; no
validation decision reads it). -/
structure ValidationResult where
  file_path : String
  errors : List ValidationMessage
  warnings : List ValidationMessage
deriving DecidableEq, Repr

/-- `ValidationResult.is_valid`. -/
def ValidationResult.is_valid (r : ValidationResult) : Bool :=
  r.errors.length == 0

/-- `ValidationResult.error_count`. -/
def ValidationResult.error_count (r : ValidationResult) : Nat :=
  r.errors.length

/-- `ValidationResult.warning_count`. -/
def ValidationResult.warning_count (r : ValidationResult) : Nat :=
  r.warnings.length

/-- The output of one validation routine: the error and warning messages it
appends to the result, in order.  Validators never read the accumulated
result, so sequencing two routines is concatenation of their outputs. -/
structure VOut where
  errors : List ValidationMessage
  warnings : List ValidationMessage
deriving DecidableEq, Repr

instance : Append VOut :=
  ⟨fun a b => ⟨a.errors ++ b.errors, a.warnings ++ b.warnings⟩⟩

/-- The empty output. -/
def VOut.nil : VOut := ⟨[], []⟩

/-- `result.errors.append(ValidationMessage(path=path, message=msg))`. -/
def errOut (path msg : String) : VOut :=
  ⟨[⟨path, msg, "error"⟩], []⟩

/-- `result.warnings.append(ValidationMessage(..., level="warning"))`. -/
def warnOut (path msg : String) : VOut :=
  ⟨[], [⟨path, msg, "warning"⟩]⟩

theorem VOut.append_def (a b : VOut) :
    a ++ b = ⟨a.errors ++ b.errors, a.warnings ++ b.warnings⟩ := rfl

theorem VOut.nil_append (a : VOut) : VOut.nil ++ a = a := by
  cases a; simp [VOut.nil, VOut.append_def]

theorem VOut.append_nil (a : VOut) : a ++ VOut.nil = a := by
  cases a; simp [VOut.nil, VOut.append_def]

/-- The `for key in x.keys(): if key not in VALID: warn(pre + key)` loops
that appear throughout the validators. -/
def unknownKeyWarns (ks valid : List String) (path pre : String) : VOut :=
  ⟨[], ks.filterMap (fun k =>
    if valid.contains k then none else some ⟨path, pre ++ k, "warning"⟩)⟩

/-- `for i, x in enumerate(l): f(i, x)` with each iteration appending its
own output. -/
def idxJoin (f : Nat → JValue → VOut) : Nat → List JValue → VOut
  | _, [] => VOut.nil
  | i, x :: xs => f i x ++ idxJoin f (i + 1) xs

namespace Validation

namespace StepValidator

/-!
Embedding of `validation/step.py` (class `StepValidator`).  The monolithic
`validator.py` contains textually identical copies of `_validate_step`,
`_validate_action`, `_validate_assertion`, `_validate_file_step` and
`_validate_block_step`; the two implementations differ only in
`_resolve_file_reference`.  The common code is therefore embedded once
here, parameterized by the resolver (`resolve`), the filesystem oracle
(`fs`) and the `_test_file_path` state (`tfp`, `none` for a fresh
validator); each implementation instantiates `resolve` with its own
`resolve_file_reference` below.
-/

/-- The `tests_root` computation of `_resolve_file_reference`
(`validation/step.py`): the parent of a `flows/` or `screens/` directory
containing (or containing the parent of) the flow test. -/
def tests_root_of (base_dir : PathT) : PathT :=
  if pathName base_dir = "flows" ∨ pathName base_dir = "screens" then
    base_dir.dropLast
  else if pathName base_dir.dropLast = "flows" ∨ pathName base_dir.dropLast = "screens" then
    base_dir.dropLast.dropLast
  else
    base_dir

/-- The candidate paths tried, in order, by `_resolve_file_reference` in
`validation/step.py`, for a test file at `p` referencing `ref`. -/
def resolve_candidates (p : PathT) (ref : String) : List PathT :=
  let base_dir := p.dropLast
  let root := tests_root_of base_dir
  [base_dir ++ [ref ++ ".test.json"],
   base_dir ++ [ref ++ ".json"],
   base_dir ++ [ref],
   root ++ ["screens", ref, ref ++ ".test.json"],
   root ++ ["screens", ref ++ ".test.json"],
   root ++ ["flows", ref, ref ++ ".test.json"],
   root ++ ["flows", ref ++ ".test.json"]]

/-- `StepValidator._resolve_file_reference` (`validation/step.py`): first
existing candidate, falling back to the most likely location
`tests_root/screens/ref/ref.test.json`; `None` when no test file path is
set. -/
def resolve_file_reference (tfp : Option PathT) (fs : PathT → Bool) (ref : String) :
    Option PathT :=
  match tfp with
  | none => none
  | some p =>
    let root := tests_root_of p.dropLast
    some (((resolve_candidates p ref).find? fs).getD
      (root ++ ["screens", ref, ref ++ ".test.json"]))

/-- The `action not in SUPPORTED_ACTIONS` test and `SUPPORTED_ACTIONS[action]`
lookup of `_validate_action`: the action name and its required parameters,
or `none` for an unsupported (or non-string) action value. -/
def action_spec (step : JValue) : Option (String × List String) :=
  match jGetD step "action" JValue.null with
  | .str a => (schema.actionRequired a).map (fun req => (a, req))
  | _ => none

/-- `StepValidator._validate_action`. -/
def validate_action (step : JValue) (path : String) : VOut :=
  let action := jGetD step "action" JValue.null
  match action_spec step with
  | none => errOut path ("Unsupported action: " ++ pyStr action)
  | some (a, req) =>
    ⟨req.filterMap (fun param =>
        if hasKey param step then none
        else some ⟨path, "Missing required parameter '" ++ param ++ "' for action '" ++ a ++ "'",
                   "error"⟩), []⟩
    ++ (if hasKey "direction" step then
          match jGetD step "direction" JValue.null with
          | .str d =>
              if schema.VALID_DIRECTIONS.contains d then VOut.nil
              else errOut path ("Invalid direction: " ++ d ++
                ". Must be one of: ['up', 'down', 'left', 'right']")
          | other => errOut path ("Invalid direction: " ++ pyStr other ++
                ". Must be one of: ['up', 'down', 'left', 'right']")
        else VOut.nil)
    ++ (if hasKey "timeout" step then
          let t := jGetD step "timeout" JValue.null
          if !pyIsInt t || pyIntVal t ≤ 0 then
            errOut path ("Timeout must be a positive integer (ms), got: " ++ pyStr t)
          else VOut.nil
        else VOut.nil)
    ++ (if hasKey "ms" step then
          let m := jGetD step "ms" JValue.null
          if !pyIsInt m || pyIntVal m ≤ 0 then
            errOut path ("ms must be a positive integer, got: " ++ pyStr m)
          else VOut.nil
        else VOut.nil)
    ++ (if hasKey "ids" step then
          match jGetD step "ids" JValue.null with
          | .arr l => if l.isEmpty then errOut path "ids must be a non-empty array" else VOut.nil
          | _ => errOut path "ids must be a non-empty array"
        else VOut.nil)

/-- The `assertion not in SUPPORTED_ASSERTIONS` test and
`SUPPORTED_ASSERTIONS[assertion]` lookup of `_validate_assertion`. -/
def assertion_spec (step : JValue) : Option (String × List String) :=
  match jGetD step "assert" JValue.null with
  | .str a => (schema.assertionRequired a).map (fun req => (a, req))
  | _ => none

/-- `StepValidator._validate_assertion`. -/
def validate_assertion (step : JValue) (path : String) : VOut :=
  let assertion := jGetD step "assert" JValue.null
  match assertion_spec step with
  | none => errOut path ("Unsupported assertion: " ++ pyStr assertion)
  | some (a, req) =>
    ⟨req.filterMap (fun param =>
        if hasKey param step then none
        else some ⟨path, "Missing required parameter '" ++ param ++ "' for assertion '" ++ a ++ "'",
                   "error"⟩), []⟩
    ++ (if a = "text" then
          if !hasKey "equals" step && !hasKey "contains" step then
            errOut path "Text assertion must have 'equals' or 'contains'"
          else VOut.nil
        else VOut.nil)

/-- `StepValidator._validate_file_step` (with `resolve` standing for this
implementation's `_resolve_file_reference` and the `if self._test_file_path`
guard: `resolve` answers `none` exactly when no test file path is set). -/
def validate_file_step (fs : PathT → Bool) (resolve : String → Option PathT)
    (step : JValue) (path : String) : VOut :=
  match jGet "file" step with
  | some (.str f) =>
    if pyStrip f = "" then errOut path "'file' must be a non-empty string"
    else
      unknownKeyWarns (jKeys step) ["file", "case", "cases"] path "Unknown key in file step: "
      ++ (if hasKey "case" step && hasKey "cases" step then
            errOut path "File step cannot have both 'case' and 'cases'"
          else VOut.nil)
      ++ (match jGet "case" step with
          | some (.str c) =>
              if pyStrip c = "" then errOut path "'case' must be a non-empty string" else VOut.nil
          | some _ => errOut path "'case' must be a non-empty string"
          | none => VOut.nil)
      ++ (match jGet "cases" step with
          | some (.arr cs) =>
              if cs.isEmpty then errOut path "'cases' must be a non-empty array"
              else if cs.all (fun c => match c with
                              | .str t => !(pyStrip t = "")
                              | _ => false) then VOut.nil
              else errOut path "'cases' must be an array of non-empty strings"
          | some _ => errOut path "'cases' must be a non-empty array"
          | none => VOut.nil)
      ++ (match resolve f with
          | some rp =>
              if fs rp then VOut.nil
              else warnOut path ("Referenced test file not found: " ++ f ++
                " (looked for " ++ pathStr rp ++ ")")
          | none => VOut.nil)
  | some _ => errOut path "'file' must be a non-empty string"
  | none => errOut path "'file' must be a non-empty string"

/-- The tail of `StepValidator.validate_step` for steps without a `file` or
`block` key: the unknown-key warnings followed by the action/assert
dichotomy.  Note the dichotomy tests Python truthiness of
`step.get("action")` / `step.get("assert")`, not key presence. -/
def validate_inline (step : JValue) (path : String) : VOut :=
  unknownKeyWarns (jKeys step) schema.VALID_STEP_KEYS path "Unknown step key: "
  ++ (let action := jGet "action" step
      let assertion := jGet "assert" step
      if jTruthy action && jTruthy assertion then
        errOut path "Step cannot have both 'action' and 'assert'"
      else if jTruthy action then validate_action step path
      else if jTruthy assertion then validate_assertion step path
      else errOut path "Step must have either 'action' or 'assert'")

/-- The duplicated `descriptionFile` existence check (it appears verbatim
in `_validate_block_step` and in the case validators): resolve relative to
the test file's directory and warn when missing.  A non-string value would
raise `TypeError` in the source and is not modelled. -/
def description_file_check (tfp : Option PathT) (fs : PathT → Bool)
    (owner : JValue) (path : String) : VOut :=
  match jGet "descriptionFile" owner, tfp with
  | some (.str d), some p =>
    let target : PathT :=
      match d.data with
      | c :: _ => if c = '/' then [d] else p.dropLast ++ [d]
      | [] => p.dropLast ++ [""]
    if fs target then VOut.nil
    else warnOut path ("Description file not found: " ++ d)
  | _, _ => VOut.nil

/-- `StepValidator._validate_block_step`.  Inner steps may not contain
`file` or `block` keys; the remaining inner steps are passed to
`validate_step(..., is_flow=False)`, which on a step without those keys
reduces to `validate_inline` (see `validate_step_eq_inline`), called
directly here to keep the recursion structural. -/
def validate_block_step (tfp : Option PathT) (fs : PathT → Bool)
    (step : JValue) (path : String) : VOut :=
  match jGet "block" step with
  | some (.str b) =>
    if pyStrip b = "" then errOut path "'block' must be a non-empty string"
    else
      unknownKeyWarns (jKeys step) ["block", "description", "descriptionFile", "steps"]
        path "Unknown key in block step: "
      ++ (match jGet "steps" step with
          | none => errOut path "Block step must have 'steps' array"
          | some (.arr steps) =>
            if steps.isEmpty then errOut path "Block 'steps' must be a non-empty array"
            else
              idxJoin (fun i s =>
                let ipath := path ++ ".steps[" ++ toString i ++ "]"
                if hasKey "file" s then
                  errOut ipath "File references are not allowed inside block steps"
                else if hasKey "block" s then
                  errOut ipath "Nested blocks are not allowed inside block steps"
                else validate_inline s ipath) 0 steps
              ++ description_file_check tfp fs step path
          | some _ => errOut path "Block 'steps' must be a non-empty array")
  | some _ => errOut path "'block' must be a non-empty string"
  | none => errOut path "'block' must be a non-empty string"

/-- `StepValidator.validate_step`. -/
def validate_step (tfp : Option PathT) (fs : PathT → Bool)
    (resolve : String → Option PathT) (step : JValue) (path : String)
    (is_flow : Bool) : VOut :=
  if hasKey "file" step then
    if !is_flow then errOut path "File reference steps are only allowed in flow tests"
    else validate_file_step fs resolve step path
  else if hasKey "block" step then
    if !is_flow then errOut path "Block steps are only allowed in flow tests"
    else validate_block_step tfp fs step path
  else validate_inline step path

/-- Sanity: on a step with neither a `file` nor a `block` key (the shape of
every inner step reaching the recursive call in `_validate_block_step`),
`validate_step` is `validate_inline`, for any flow mode. -/
theorem validate_step_eq_inline (tfp : Option PathT) (fs : PathT → Bool)
    (resolve : String → Option PathT) (step : JValue) (path : String) (b : Bool)
    (h1 : hasKey "file" step = false) (h2 : hasKey "block" step = false) :
    validate_step tfp fs resolve step path b = validate_inline step path := by
  simp [validate_step, h1, h2]

end StepValidator

end Validation

namespace Validation

namespace ScreenTestValidator

/-!
Embedding of `validation/screen.py` (class `ScreenTestValidator`).
-/

/-- `{` (written via its code point to keep string/char syntax plain). -/
def lbrace : Char := Char.ofNat 123

/-- `}`. -/
def rbrace : Char := Char.ofNat 125

/-- Scanner state for the regex `@\x7b([^\x7d]+)\x7d`
(`ARG_PLACEHOLDER_PATTERN`): outside any candidate match, just after an
`@`, or inside `@\x7b...` collecting the (reversed) capture. -/
inductive PHState where
  | idle
  | afterAt
  | inside (acc : List Char)

/-- Left-to-right, non-overlapping scan of `ARG_PLACEHOLDER_PATTERN.findall`:
a match is `@`, `\x7b`, one or more non-`\x7d` characters, `\x7d`; on
failure the regex engine advances one position, and since no match can
begin at a `\x7b` or `\x7d`, resuming at the next character is
equivalent. -/
def scanPH : PHState → List Char → List String
  | _, [] => []
  | .idle, c :: cs => scanPH (if c = '@' then .afterAt else .idle) cs
  | .afterAt, c :: cs =>
      scanPH (if c = '@' then .afterAt else if c = lbrace then .inside [] else .idle) cs
  | .inside acc, c :: cs =>
      if c = rbrace then
        if acc.isEmpty then scanPH .idle cs
        else acc.reverse.asString :: scanPH .idle cs
      else scanPH (.inside (c :: acc)) cs

/-- `ARG_PLACEHOLDER_PATTERN.findall(s)`: all `@\x7bname\x7d` placeholder
names in `s`, in order, with multiplicity. -/
def findPlaceholders (s : String) : List String :=
  scanPH .idle s.data

mutual

/-- `ScreenTestValidator._extract_args_from_value` (and its list/field
traversals): every placeholder occurrence in any string value reachable
through nested dicts and lists. -/
def extract_args_from_value : JValue → List String
  | .str s => findPlaceholders s
  | .obj fields => extract_args_from_fields fields
  | .arr items => extract_args_from_list items
  | _ => []

def extract_args_from_fields : List (String × JValue) → List String
  | [] => []
  | (_, v) :: rest => extract_args_from_value v ++ extract_args_from_fields rest

def extract_args_from_list : List JValue → List String
  | [] => []
  | v :: rest => extract_args_from_value v ++ extract_args_from_list rest

end

/-- `ScreenTestValidator._extract_used_args` over the case's steps.  The
source accumulates into a Python `set`; the set's contents are the
occurrence list without regard to order or multiplicity, and the only
consumer sorts it, so the occurrence list is kept here and deduplicated at
the use site. -/
def extract_used_args (steps : List JValue) : List String :=
  extract_args_from_list steps

/-- Python-style (code-point lexicographic) `≤` on strings, structurally. -/
def charListLe : List Char → List Char → Bool
  | [], _ => true
  | _ :: _, [] => false
  | a :: as_, b :: bs =>
      if a.toNat < b.toNat then true
      else if a.toNat = b.toNat then charListLe as_ bs
      else false

/-- Insertion step of `sorted` on strings. -/
def insertSorted (x : String) : List String → List String
  | [] => [x]
  | y :: ys => if charListLe x.data y.data then x :: y :: ys else y :: insertSorted x ys

/-- Python `sorted` on a list of strings (insertion sort; `sorted` on a set
of strings yields the same code-point-ordered list). -/
def pySorted : List String → List String
  | [] => []
  | x :: xs => insertSorted x (pySorted xs)

/-- The message of the undefined-placeholder error for `name`. -/
def undefinedArgMsg (name : String) : String :=
  "Undefined argument '@\x7b" ++ name ++ "\x7d' used in steps but not defined in 'args'"

/-- The final block of `ScreenTestValidator._validate_case`: the names
used in `steps` but not defined in the case's `args`, sorted, each
yielding one error. -/
def undefined_args_errors (case_ : JValue) (steps : List JValue) (path : String) :
    List ValidationMessage :=
  let defined : List String :=
    match jGet "args" case_ with
    | some (.obj kvs) => kvs.map Prod.fst
    | _ => []
  let used := (extract_used_args steps).dedup
  (pySorted (used.filter (fun n => !defined.contains n))).map
    (fun n => ⟨path, undefinedArgMsg n, "error"⟩)

/-- The `args` block of `ScreenTestValidator._validate_case`.  (JSON object
keys are strings, so the source's `isinstance(key, str)` error branch is
vacuous in this embedding.) -/
def validate_case_args (case_ : JValue) (path : String) : VOut :=
  match jGet "args" case_ with
  | none => VOut.nil
  | some (.obj kvs) =>
    ⟨kvs.filterMap (fun kv =>
        if pyIsPrimitive kv.2 then none
        else some ⟨path ++ ".args." ++ kv.1,
          "Argument value must be a primitive type (string, number, boolean), got: " ++
            pyTypeName kv.2, "error"⟩), []⟩
  | some _ => errOut (path ++ ".args") "'args' must be an object/dictionary"

/-- `ScreenTestValidator._validate_case`.  Steps are validated through the
modular `StepValidator` with its resolver. -/
def validate_case (tfp : Option PathT) (fs : PathT → Bool)
    (case_ : JValue) (path : String) : VOut :=
  (if hasKey "name" case_ then VOut.nil
   else errOut path "Test case missing 'name' field")
  ++ (if hasKey "description" case_ then VOut.nil
      else warnOut path ("Test case '" ++ pyStr (jGetD case_ "name" (.str "unknown")) ++
        "' missing 'description' field (recommended for HTML documentation)"))
  ++ unknownKeyWarns (jKeys case_) schema.VALID_CASE_KEYS path "Unknown case key: "
  ++ Validation.StepValidator.description_file_check tfp fs case_ path
  ++ validate_case_args case_ path
  ++ (let steps := jGetD case_ "steps" (.arr [])
      (if steps.truthy then VOut.nil else warnOut path "Test case has no steps")
      ++ idxJoin (fun i s =>
           Validation.StepValidator.validate_step tfp fs
             (Validation.StepValidator.resolve_file_reference tfp fs) s
             (path ++ ".steps[" ++ toString i ++ "]") false) 0 (pyEnumerate steps)
      ++ ⟨undefined_args_errors case_ (pyEnumerate steps) path, []⟩)

/-- `ScreenTestValidator.validate`. -/
def validate (tfp : Option PathT) (fs : PathT → Bool)
    (data : JValue) (path : String) : VOut :=
  unknownKeyWarns (jKeys data) schema.VALID_TOP_LEVEL_KEYS path "Unknown top-level key: "
  ++ (match jGet "source" data with
      | some src =>
        if src.truthy then
          match src with
          | .obj fields =>
              unknownKeyWarns (fields.map Prod.fst) schema.VALID_SOURCE_KEYS
                (path ++ ".source") "Unknown source key: "
          | _ => VOut.nil
        else VOut.nil
      | none => VOut.nil)
  ++ (if hasKey "metadata" data then VOut.nil
      else warnOut path "Missing 'metadata' field")
  ++ (let cases := jGetD data "cases" (.arr [])
      (if cases.truthy then VOut.nil else warnOut path "No test cases defined")
      ++ idxJoin (fun i c => validate_case tfp fs c (path ++ ".cases[" ++ toString i ++ "]"))
           0 (pyEnumerate cases))
  ++ (if hasKey "setup" data then
        idxJoin (fun i s =>
          Validation.StepValidator.validate_step tfp fs
            (Validation.StepValidator.resolve_file_reference tfp fs) s
            (path ++ ".setup[" ++ toString i ++ "]") false) 0
          (pyEnumerate (jGetD data "setup" .null))
      else VOut.nil)
  ++ (if hasKey "teardown" data then
        idxJoin (fun i s =>
          Validation.StepValidator.validate_step tfp fs
            (Validation.StepValidator.resolve_file_reference tfp fs) s
            (path ++ ".teardown[" ++ toString i ++ "]") false) 0
          (pyEnumerate (jGetD data "teardown" .null))
      else VOut.nil)

end ScreenTestValidator

end Validation

namespace Validation

namespace FlowTestValidator

/-!
Embedding of `validation/flow.py` (class `FlowTestValidator`).
-/

/-- The warning message of the subdirectory-reference pre-scan for a file
reference `f`. -/
def sepWarnMsg (f : String) : String :=
  "File reference '" ++ f ++ "' contains path separator. " ++
  "Use just the filename (e.g., 'login' instead of 'screens/login'). " ++
  "The loader automatically looks in screens/ subdirectory."

/-- The contribution of one collected step to
`FlowTestValidator._check_subdirectory_references`: a single warning when
the step has a `file` value containing `/` or `\`, nothing otherwise.
Steps that are not dicts, or whose `file` value is not a string, would
raise or answer a different membership question in the source and are kept
out of the modelled fragment (see `scan_ok`). -/
def sep_scan (path : String) : JValue → List ValidationMessage
  | .obj fields =>
    match jLookup "file" fields with
    | some (.str f) =>
        if f.data.contains '/' || f.data.contains '\\' then
          [⟨path ++ ".steps", sepWarnMsg f, "warning"⟩]
        else []
    | _ => []
  | _ => []

/-- The step shapes on which `sep_scan` is a faithful model of the
source's pre-scan iteration: dict steps whose `file` value, if any, is a
string. -/
def scan_ok : JValue → Bool
  | .obj fields =>
    match jLookup "file" fields with
    | some (.str _) => true
    | some _ => false
    | none => true
  | _ => false

/-- `FlowTestValidator._check_subdirectory_references`: scan
`setup + steps + teardown` and warn for every file reference containing a
path separator. -/
def check_subdirectory_references (data : JValue) (path : String) : VOut :=
  let all_steps :=
    pyEnumerate (jGetD data "setup" (.arr [])) ++
    pyEnumerate (jGetD data "steps" (.arr [])) ++
    pyEnumerate (jGetD data "teardown" (.arr []))
  ⟨[], all_steps.flatMap (sep_scan path)⟩

/-- The part of `FlowTestValidator.validate` after the pre-scan: the
empty-steps warning and the per-step validation of `steps` (only) with
`is_flow=True`. -/
def validate_steps (tfp : Option PathT) (fs : PathT → Bool)
    (data : JValue) (path : String) : VOut :=
  let steps := jGetD data "steps" (.arr [])
  (if steps.truthy then VOut.nil else warnOut path "No steps defined in flow test")
  ++ idxJoin (fun i s =>
       Validation.StepValidator.validate_step tfp fs
         (Validation.StepValidator.resolve_file_reference tfp fs) s
         (path ++ ".steps[" ++ toString i ++ "]") true) 0 (pyEnumerate steps)

/-- `FlowTestValidator.validate`. -/
def validate (tfp : Option PathT) (fs : PathT → Bool)
    (data : JValue) (path : String) : VOut :=
  check_subdirectory_references data path ++ validate_steps tfp fs data path

end FlowTestValidator

namespace TestValidator

/-!
Embedding of `validation/validator.py` (class `TestValidator`): the
dispatch by document `type`.  `validate_file`'s JSON parsing and file-type
classification are I/O and are not needed by any claim; `validate_data` is
the pure entry point.  `tfp` is the `_test_file_path` state shared with
the sub-validators (`none` for a fresh instance).
-/

/-- `TestValidator._validate_test`. -/
def validate_test (tfp : Option PathT) (fs : PathT → Bool)
    (data : JValue) (path : String) : VOut :=
  match jGet "type" data with
  | some (.str t) =>
    if t = "screen" then Validation.ScreenTestValidator.validate tfp fs data path
    else if t = "flow" then Validation.FlowTestValidator.validate tfp fs data path
    else errOut path ("Unknown or missing test type: " ++ t)
  | some v => errOut path ("Unknown or missing test type: " ++ pyStr v)
  | none => errOut path ("Unknown or missing test type: None")

/-- `TestValidator.validate_data`. -/
def validate_data (tfp : Option PathT) (fs : PathT → Bool)
    (data : JValue) (name : String) : ValidationResult :=
  let o := validate_test tfp fs data name
  ⟨name, o.errors, o.warnings⟩

end TestValidator

end Validation

namespace Validator

/-!
Embedding of the monolithic `jsonui_test_cli/validator.py` (class
`TestValidator`).  Its `_validate_step`, `_validate_action`,
`_validate_assertion`, `_validate_file_step` and `_validate_block_step`
are textually identical to the modular `validation/step.py` and share the
embedding `Validation.StepValidator.*`, instantiated with this file's own
`_resolve_file_reference` below.
-/

/-- `TestValidator._resolve_file_reference` (`validator.py`): only the
three same-directory candidates, falling back to the first. -/
def resolve_candidates (p : PathT) (ref : String) : List PathT :=
  let base_dir := p.dropLast
  [base_dir ++ [ref ++ ".test.json"],
   base_dir ++ [ref ++ ".json"],
   base_dir ++ [ref]]

/-- `TestValidator._resolve_file_reference` (`validator.py`). -/
def resolve_file_reference (tfp : Option PathT) (fs : PathT → Bool) (ref : String) :
    Option PathT :=
  match tfp with
  | none => none
  | some p =>
    some (((resolve_candidates p ref).find? fs).getD (p.dropLast ++ [ref ++ ".test.json"]))

/-- `TestValidator._validate_case` (`validator.py`).  Unlike the modular
`ScreenTestValidator._validate_case`, it has no `args` validation and no
undefined-placeholder check. -/
def validate_case (tfp : Option PathT) (fs : PathT → Bool)
    (case_ : JValue) (path : String) : VOut :=
  (if hasKey "name" case_ then VOut.nil
   else errOut path "Test case missing 'name' field")
  ++ (if hasKey "description" case_ then VOut.nil
      else warnOut path ("Test case '" ++ pyStr (jGetD case_ "name" (.str "unknown")) ++
        "' missing 'description' field (recommended for HTML documentation)"))
  ++ unknownKeyWarns (jKeys case_) schema.VALID_CASE_KEYS path "Unknown case key: "
  ++ Validation.StepValidator.description_file_check tfp fs case_ path
  ++ (let steps := jGetD case_ "steps" (.arr [])
      (if steps.truthy then VOut.nil else warnOut path "Test case has no steps")
      ++ idxJoin (fun i s =>
           Validation.StepValidator.validate_step tfp fs
             (resolve_file_reference tfp fs) s
             (path ++ ".steps[" ++ toString i ++ "]") false) 0 (pyEnumerate steps))

/-- `TestValidator._validate_screen_test` (`validator.py`).  Unlike the
modular `ScreenTestValidator.validate`, it has no `source`-key check. -/
def validate_screen_test (tfp : Option PathT) (fs : PathT → Bool)
    (data : JValue) (path : String) : VOut :=
  unknownKeyWarns (jKeys data) schema.VALID_TOP_LEVEL_KEYS path "Unknown top-level key: "
  ++ (if hasKey "metadata" data then VOut.nil
      else warnOut path "Missing 'metadata' field")
  ++ (let cases := jGetD data "cases" (.arr [])
      (if cases.truthy then VOut.nil else warnOut path "No test cases defined")
      ++ idxJoin (fun i c => validate_case tfp fs c (path ++ ".cases[" ++ toString i ++ "]"))
           0 (pyEnumerate cases))
  ++ (if hasKey "setup" data then
        idxJoin (fun i s =>
          Validation.StepValidator.validate_step tfp fs
            (resolve_file_reference tfp fs) s
            (path ++ ".setup[" ++ toString i ++ "]") false) 0
          (pyEnumerate (jGetD data "setup" .null))
      else VOut.nil)
  ++ (if hasKey "teardown" data then
        idxJoin (fun i s =>
          Validation.StepValidator.validate_step tfp fs
            (resolve_file_reference tfp fs) s
            (path ++ ".teardown[" ++ toString i ++ "]") false) 0
          (pyEnumerate (jGetD data "teardown" .null))
      else VOut.nil)

/-- `TestValidator._validate_flow_test` (`validator.py`).  Unlike the
modular `FlowTestValidator.validate`, it has no subdirectory-reference
pre-scan. -/
def validate_flow_test (tfp : Option PathT) (fs : PathT → Bool)
    (data : JValue) (path : String) : VOut :=
  let steps := jGetD data "steps" (.arr [])
  (if steps.truthy then VOut.nil else warnOut path "No steps defined in flow test")
  ++ idxJoin (fun i s =>
       Validation.StepValidator.validate_step tfp fs
         (resolve_file_reference tfp fs) s
         (path ++ ".steps[" ++ toString i ++ "]") true) 0 (pyEnumerate steps)

/-- `TestValidator._validate_test` (`validator.py`). -/
def validate_test (tfp : Option PathT) (fs : PathT → Bool)
    (data : JValue) (path : String) : VOut :=
  match jGet "type" data with
  | some (.str t) =>
    if t = "screen" then validate_screen_test tfp fs data path
    else if t = "flow" then validate_flow_test tfp fs data path
    else errOut path ("Unknown or missing test type: " ++ t)
  | some v => errOut path ("Unknown or missing test type: " ++ pyStr v)
  | none => errOut path ("Unknown or missing test type: None")

/-- `TestValidator.validate_data` (`validator.py`). -/
def validate_data (tfp : Option PathT) (fs : PathT → Bool)
    (data : JValue) (name : String) : ValidationResult :=
  let o := validate_test tfp fs data name
  ⟨name, o.errors, o.warnings⟩

end Validator

/-!
Proof infrastructure: output algebra, congruence for iteration, and
discrimination of message strings by incompatible prefixes.
-/

theorem VOut.append_assoc (a b c : VOut) : a ++ b ++ c = a ++ (b ++ c) := by
  cases a; cases b; cases c; simp [VOut.append_def]

theorem VOut.errors_append (a b : VOut) : (a ++ b).errors = a.errors ++ b.errors := rfl

theorem VOut.warnings_append (a b : VOut) : (a ++ b).warnings = a.warnings ++ b.warnings := rfl

theorem unknownKeyWarns_errors (ks valid : List String) (path pre : String) :
    (unknownKeyWarns ks valid path pre).errors = [] := rfl

theorem idxJoin_congr {f g : Nat → JValue → VOut} :
    ∀ (l : List JValue) (n : Nat), (∀ i s, s ∈ l → f i s = g i s) →
      idxJoin f n l = idxJoin g n l := by
  intro l
  induction l with
  | nil => intro n _; rfl
  | cons x xs ih =>
    intro n h
    simp only [idxJoin]
    rw [h n x (by simp), ih (n + 1) (fun i s hs => h i s (by simp [hs]))]

theorem idxJoin_errors_mem {f : Nat → JValue → VOut} :
    ∀ (l : List JValue) (n : Nat) (m : ValidationMessage),
      m ∈ (idxJoin f n l).errors → ∃ i s, s ∈ l ∧ m ∈ (f i s).errors := by
  intro l
  induction l with
  | nil => intro n m h; simp [idxJoin, VOut.nil] at h
  | cons x xs ih =>
    intro n m h
    simp only [idxJoin, VOut.errors_append, List.mem_append] at h
    rcases h with h | h
    · exact ⟨n, x, by simp, h⟩
    · obtain ⟨i, s, hs, hm⟩ := ih (n + 1) m h
      exact ⟨i, s, by simp [hs], hm⟩

/-- Two character lists disagree at some position below both lengths; a
string starting with one cannot start with the other. -/
def incompat : List Char → List Char → Bool
  | [], _ => false
  | _, [] => false
  | a :: as_, b :: bs => if a = b then incompat as_ bs else true

theorem append_ne_of_incompat :
    ∀ {p q : List Char}, incompat p q = true → ∀ a b, p ++ a ≠ q ++ b := by
  intro p
  induction p with
  | nil => intro q h; simp [incompat] at h
  | cons x xs ih =>
    intro q h a b
    cases q with
    | nil => simp [incompat] at h
    | cons y ys =>
      simp only [incompat] at h
      by_cases hxy : x = y
      · subst hxy
        simp only [if_pos rfl] at h
        intro heq
        simp only [List.cons_append, List.cons.injEq] at heq
        exact ih h a b heq.2
      · intro heq
        simp only [List.cons_append, List.cons.injEq] at heq
        exact hxy heq.1

/-- `p ++ a ≠ q ++ b` at string level, given incompatible prefixes. -/
theorem str_append_ne (p q a b : String) (h : incompat p.data q.data = true) :
    p ++ a ≠ q ++ b := by
  intro heq
  have hd := congrArg String.data heq
  rw [String.data_append, String.data_append] at hd
  exact append_ne_of_incompat h a.data b.data hd

/-- A whole string incompatible with a prefixed form. -/
theorem str_ne_append (p q b : String) (h : incompat p.data q.data = true) :
    p ≠ q ++ b := by
  intro heq
  have : p ++ "" = q ++ b := by
    rw [String.append_empty]; exact heq
  exact str_append_ne p q "" b h this

/-- Strings of the same prefixed form are equal only on equal tails. -/
theorem str_append_left_cancel {p a b : String} (h : p ++ a = p ++ b) : a = b := by
  have hd := congrArg String.data h
  rw [String.data_append, String.data_append] at hd
  have := List.append_cancel_left hd
  cases a; cases b
  exact congrArg String.mk this

theorem str_append_right_cancel {p a b : String} (h : a ++ p = b ++ p) : a = b := by
  have hd := congrArg String.data h
  rw [String.data_append, String.data_append] at hd
  have := List.append_cancel_right hd
  cases a; cases b
  exact congrArg String.mk this

/-- A message is one of a finite set of forms: some listed prefix followed
by an arbitrary tail (fixed messages use the empty tail). -/
def MsgHasForm (ps : List String) (m : String) : Prop :=
  ∃ p ∈ ps, ∃ x, m = p ++ x

theorem MsgHasForm.mono {ps qs : List String} {m : String}
    (hsub : ∀ p ∈ ps, p ∈ qs) (h : MsgHasForm ps m) : MsgHasForm qs m := by
  obtain ⟨p, hp, x, hx⟩ := h
  exact ⟨p, hsub p hp, x, hx⟩

/-- A message of one of the listed forms cannot equal `q ++ y` when `q` is
incompatible with every listed prefix. -/
theorem MsgHasForm.ne_append {ps : List String} {m : String}
    (h : MsgHasForm ps m) (q y : String)
    (hall : ∀ p ∈ ps, incompat p.data q.data = true) : m ≠ q ++ y := by
  obtain ⟨p, hp, x, hx⟩ := h
  rw [hx]
  exact str_append_ne p q x y (hall p hp)

/-- Specialization to a fixed (un-suffixed) target string. -/
theorem MsgHasForm.ne_fixed {ps : List String} {m : String}
    (h : MsgHasForm ps m) (q : String)
    (hall : ∀ p ∈ ps, incompat p.data q.data = true) : m ≠ q := by
  have := h.ne_append q "" hall
  rwa [String.append_empty] at this

/-- A single-form helper. -/
theorem msgHasForm_single {p : String} (ps : List String) (hp : p ∈ ps) (x : String) :
    MsgHasForm ps (p ++ x) := ⟨p, hp, x, rfl⟩

theorem msgHasForm_fixed {p : String} (ps : List String) (hp : p ∈ ps) :
    MsgHasForm ps p := ⟨p, hp, "", (String.append_empty p).symm⟩

namespace Validation

namespace StepValidator

/-- Every error-message form `_validate_action` can produce. -/
def action_error_prefixes : List String :=
  ["Unsupported action: ",
   "Missing required parameter '",
   "Invalid direction: ",
   "Timeout must be a positive integer (ms), got: ",
   "ms must be a positive integer, got: ",
   "ids must be a non-empty array"]

theorem validate_action_msg_form (step : JValue) (path : String)
    (m : ValidationMessage) (hm : m ∈ (validate_action step path).errors) :
    MsgHasForm action_error_prefixes m.message := by
  unfold validate_action at hm
  cases hA : action_spec step with
  | none =>
    simp only [hA, errOut, List.mem_singleton] at hm
    subst hm
    exact msgHasForm_single _ (by simp [action_error_prefixes]) _
  | some ar =>
    obtain ⟨a, req⟩ := ar
    simp only [hA, VOut.errors_append, List.mem_append] at hm
    rcases hm with ((((hm | hm) | hm) | hm) | hm)
    · simp only [List.mem_filterMap] at hm
      obtain ⟨param, _, hp⟩ := hm
      split at hp
      · cases hp
      · simp only [Option.some.injEq] at hp
        subst hp
        exact ⟨"Missing required parameter '", by simp [action_error_prefixes], _,
          by simp only [String.append_assoc]; rfl⟩
    · split at hm
      · split at hm
        · split at hm
          · simp [VOut.nil] at hm
          · simp only [errOut, List.mem_singleton] at hm
            subst hm
            exact ⟨"Invalid direction: ", by simp [action_error_prefixes], _,
              by simp only [String.append_assoc]; rfl⟩
        · simp only [errOut, List.mem_singleton] at hm
          subst hm
          exact ⟨"Invalid direction: ", by simp [action_error_prefixes], _,
            by simp only [String.append_assoc]; rfl⟩
      · simp [VOut.nil] at hm
    · split at hm
      · split at hm
        · simp only [errOut, List.mem_singleton] at hm
          subst hm
          exact ⟨"Timeout must be a positive integer (ms), got: ",
            by simp [action_error_prefixes], _, rfl⟩
        · simp [VOut.nil] at hm
      · simp [VOut.nil] at hm
    · split at hm
      · split at hm
        · simp only [errOut, List.mem_singleton] at hm
          subst hm
          exact ⟨"ms must be a positive integer, got: ",
            by simp [action_error_prefixes], _, rfl⟩
        · simp [VOut.nil] at hm
      · simp [VOut.nil] at hm
    · split at hm
      · split at hm
        · split at hm
          · simp only [errOut, List.mem_singleton] at hm
            subst hm
            exact msgHasForm_fixed _ (by simp [action_error_prefixes])
          · simp [VOut.nil] at hm
        · simp only [errOut, List.mem_singleton] at hm
          subst hm
          exact msgHasForm_fixed _ (by simp [action_error_prefixes])
      · simp [VOut.nil] at hm

end StepValidator

end Validation

namespace Validation

namespace StepValidator

/-- Every error-message form `_validate_assertion` can produce. -/
def assertion_error_prefixes : List String :=
  ["Unsupported assertion: ",
   "Missing required parameter '",
   "Text assertion must have 'equals' or 'contains'"]

theorem validate_assertion_msg_form (step : JValue) (path : String)
    (m : ValidationMessage) (hm : m ∈ (validate_assertion step path).errors) :
    MsgHasForm assertion_error_prefixes m.message := by
  unfold validate_assertion at hm
  cases hA : assertion_spec step with
  | none =>
    simp only [hA, errOut, List.mem_singleton] at hm
    subst hm
    exact msgHasForm_single _ (by simp [assertion_error_prefixes]) _
  | some ar =>
    obtain ⟨a, req⟩ := ar
    simp only [hA, VOut.errors_append, List.mem_append] at hm
    rcases hm with hm | hm
    · simp only [List.mem_filterMap] at hm
      obtain ⟨param, _, hp⟩ := hm
      split at hp
      · cases hp
      · simp only [Option.some.injEq] at hp
        subst hp
        exact ⟨"Missing required parameter '", by simp [assertion_error_prefixes], _,
          by simp only [String.append_assoc]; rfl⟩
    · split at hm
      · split at hm
        · simp only [errOut, List.mem_singleton] at hm
          subst hm
          exact msgHasForm_fixed _ (by simp [assertion_error_prefixes])
        · simp [VOut.nil] at hm
      · simp [VOut.nil] at hm

/-- Every error-message form the inline (no `file`/`block` key) part of
`validate_step` can produce. -/
def inline_error_prefixes : List String :=
  ["Step cannot have both 'action' and 'assert'",
   "Step must have either 'action' or 'assert'"] ++
  action_error_prefixes ++ assertion_error_prefixes

theorem validate_inline_msg_form (step : JValue) (path : String)
    (m : ValidationMessage) (hm : m ∈ (validate_inline step path).errors) :
    MsgHasForm inline_error_prefixes m.message := by
  unfold validate_inline at hm
  simp only [VOut.errors_append, unknownKeyWarns_errors, List.nil_append] at hm
  split at hm
  · simp only [errOut, List.mem_singleton] at hm
    subst hm
    exact msgHasForm_fixed _ (by simp [inline_error_prefixes])
  · split at hm
    · exact (validate_action_msg_form step path m hm).mono (by decide)
    · split at hm
      · exact (validate_assertion_msg_form step path m hm).mono (by decide)
      · simp only [errOut, List.mem_singleton] at hm
        subst hm
        exact msgHasForm_fixed _ (by simp [inline_error_prefixes])

/-- Every error-message form `_validate_file_step` can produce. -/
def file_step_error_prefixes : List String :=
  ["'file' must be a non-empty string",
   "File step cannot have both 'case' and 'cases'",
   "'case' must be a non-empty string",
   "'cases' must be a non-empty array",
   "'cases' must be an array of non-empty strings"]

theorem validate_file_step_msg_form (fs : PathT → Bool) (resolve : String → Option PathT)
    (step : JValue) (path : String)
    (m : ValidationMessage) (hm : m ∈ (validate_file_step fs resolve step path).errors) :
    MsgHasForm file_step_error_prefixes m.message := by
  unfold validate_file_step at hm
  split at hm
  · rename_i f _
    split at hm
    · simp only [errOut, List.mem_singleton] at hm
      subst hm
      exact msgHasForm_fixed _ (by simp [file_step_error_prefixes])
    · simp only [VOut.errors_append, unknownKeyWarns_errors, List.nil_append,
        List.mem_append] at hm
      rcases hm with ((hm | hm) | hm) | hm
      · split at hm
        · simp only [errOut, List.mem_singleton] at hm
          subst hm
          exact msgHasForm_fixed _ (by simp [file_step_error_prefixes])
        · simp [VOut.nil] at hm
      · split at hm
        · split at hm
          · simp only [errOut, List.mem_singleton] at hm
            subst hm
            exact msgHasForm_fixed _ (by simp [file_step_error_prefixes])
          · simp [VOut.nil] at hm
        · simp only [errOut, List.mem_singleton] at hm
          subst hm
          exact msgHasForm_fixed _ (by simp [file_step_error_prefixes])
        · simp [VOut.nil] at hm
      · split at hm
        · split at hm
          · simp only [errOut, List.mem_singleton] at hm
            subst hm
            exact msgHasForm_fixed _ (by simp [file_step_error_prefixes])
          · split at hm
            · simp [VOut.nil] at hm
            · simp only [errOut, List.mem_singleton] at hm
              subst hm
              exact msgHasForm_fixed _ (by simp [file_step_error_prefixes])
        · simp only [errOut, List.mem_singleton] at hm
          subst hm
          exact msgHasForm_fixed _ (by simp [file_step_error_prefixes])
        · simp [VOut.nil] at hm
      · split at hm
        · split at hm
          · simp [VOut.nil] at hm
          · simp only [warnOut] at hm
            simp at hm
        · simp [VOut.nil] at hm
  · simp only [errOut, List.mem_singleton] at hm
    subst hm
    exact msgHasForm_fixed _ (by simp [file_step_error_prefixes])
  · simp only [errOut, List.mem_singleton] at hm
    subst hm
    exact msgHasForm_fixed _ (by simp [file_step_error_prefixes])

/-- The `descriptionFile` check emits warnings only. -/
theorem description_file_check_errors (tfp : Option PathT) (fs : PathT → Bool)
    (owner : JValue) (path : String) :
    (description_file_check tfp fs owner path).errors = [] := by
  unfold description_file_check
  split
  · simp only []
    split <;> rfl
  · rfl

/-- Every error-message form `_validate_block_step` can produce. -/
def block_step_error_prefixes : List String :=
  ["'block' must be a non-empty string",
   "Block step must have 'steps' array",
   "Block 'steps' must be a non-empty array",
   "File references are not allowed inside block steps",
   "Nested blocks are not allowed inside block steps"] ++
  inline_error_prefixes

theorem validate_block_step_msg_form (tfp : Option PathT) (fs : PathT → Bool)
    (step : JValue) (path : String)
    (m : ValidationMessage) (hm : m ∈ (validate_block_step tfp fs step path).errors) :
    MsgHasForm block_step_error_prefixes m.message := by
  unfold validate_block_step at hm
  split at hm
  · split at hm
    · simp only [errOut, List.mem_singleton] at hm
      subst hm
      exact msgHasForm_fixed _ (by simp [block_step_error_prefixes])
    · simp only [VOut.errors_append, unknownKeyWarns_errors, List.nil_append] at hm
      split at hm
      · simp only [errOut, List.mem_singleton] at hm
        subst hm
        exact msgHasForm_fixed _ (by simp [block_step_error_prefixes])
      · split at hm
        · simp only [errOut, List.mem_singleton] at hm
          subst hm
          exact msgHasForm_fixed _ (by simp [block_step_error_prefixes])
        · simp only [VOut.errors_append, List.mem_append] at hm
          rcases hm with hm | hm
          · obtain ⟨i, s, _, hms⟩ := idxJoin_errors_mem _ _ m hm
            split at hms
            · simp only [errOut, List.mem_singleton] at hms
              subst hms
              exact msgHasForm_fixed _ (by simp [block_step_error_prefixes])
            · split at hms
              · simp only [errOut, List.mem_singleton] at hms
                subst hms
                exact msgHasForm_fixed _ (by simp [block_step_error_prefixes])
              · exact (validate_inline_msg_form s _ m hms).mono (by decide)
          · rw [description_file_check_errors] at hm
            cases hm
      · simp only [errOut, List.mem_singleton] at hm
        subst hm
        exact msgHasForm_fixed _ (by simp [block_step_error_prefixes])
  · simp only [errOut, List.mem_singleton] at hm
    subst hm
    exact msgHasForm_fixed _ (by simp [block_step_error_prefixes])
  · simp only [errOut, List.mem_singleton] at hm
    subst hm
    exact msgHasForm_fixed _ (by simp [block_step_error_prefixes])

/-- Every error-message form `validate_step` can produce, in either flow
mode. -/
def step_error_prefixes : List String :=
  ["File reference steps are only allowed in flow tests",
   "Block steps are only allowed in flow tests"] ++
  file_step_error_prefixes ++ block_step_error_prefixes

theorem validate_step_msg_form (tfp : Option PathT) (fs : PathT → Bool)
    (resolve : String → Option PathT) (step : JValue) (path : String) (b : Bool)
    (m : ValidationMessage) (hm : m ∈ (validate_step tfp fs resolve step path b).errors) :
    MsgHasForm step_error_prefixes m.message := by
  unfold validate_step at hm
  split at hm
  · split at hm
    · simp only [errOut, List.mem_singleton] at hm
      subst hm
      exact msgHasForm_fixed _ (by simp [step_error_prefixes])
    · exact (validate_file_step_msg_form fs resolve step path m hm).mono (by decide)
  · split at hm
    · split at hm
      · simp only [errOut, List.mem_singleton] at hm
        subst hm
        exact msgHasForm_fixed _ (by simp [step_error_prefixes])
      · exact (validate_block_step_msg_form tfp fs step path m hm).mono (by decide)
    · exact (validate_inline_msg_form step path m hm).mono (by decide)

end StepValidator

end Validation

/-!
Claim theorems.
-/

/-- C10: a `ValidationResult` is valid exactly when its error list is
empty, and appending any number of warnings never changes validity. -/
theorem C10_is_valid_iff_no_errors (r : ValidationResult) (ws : List ValidationMessage) :
    (r.is_valid = true ↔ r.errors = []) ∧
    ({ r with warnings := r.warnings ++ ws } : ValidationResult).is_valid = r.is_valid := by
  constructor
  · simp [ValidationResult.is_valid, List.length_eq_zero]
  · rfl

/-- C2 is false as stated: on a step carrying both an `action` and an
`assert` key whose values are empty strings, the validator does not append
the error "Step cannot have both 'action' and 'assert'"; it appends
"Step must have either 'action' or 'assert'" instead, because the dichotomy
tests Python truthiness of the values, not key presence. -/
theorem C2_counterexample :
    let step : JValue := .obj [("action", .str ""), ("assert", .str "")]
    let out := Validation.StepValidator.validate_step none (fun _ => false) (fun _ => none)
      step "p" false
    hasKey "action" step = true ∧ hasKey "assert" step = true ∧
    (⟨"p", "Step cannot have both 'action' and 'assert'", "error"⟩ ∉ out.errors) ∧
    out.errors = [⟨"p", "Step must have either 'action' or 'assert'", "error"⟩] := by
  decide

/-- C2 (amended): for a step with neither a `file` nor a `block` key, the
action/assert dichotomy is decided by Python truthiness of the two values:
if both are truthy the only error appended is "Step cannot have both
'action' and 'assert'"; if neither is truthy (absent keys, but also empty
strings or other falsy values) the only error appended is "Step must have
either 'action' or 'assert'". -/
theorem C2_amended_theorem (tfp : Option PathT) (fs : PathT → Bool)
    (resolve : String → Option PathT) (step : JValue) (path : String) (b : Bool)
    (h1 : hasKey "file" step = false) (h2 : hasKey "block" step = false) :
    (jTruthy (jGet "action" step) = true → jTruthy (jGet "assert" step) = true →
      (Validation.StepValidator.validate_step tfp fs resolve step path b).errors =
        [⟨path, "Step cannot have both 'action' and 'assert'", "error"⟩]) ∧
    (jTruthy (jGet "action" step) = false → jTruthy (jGet "assert" step) = false →
      (Validation.StepValidator.validate_step tfp fs resolve step path b).errors =
        [⟨path, "Step must have either 'action' or 'assert'", "error"⟩]) := by
  rw [Validation.StepValidator.validate_step_eq_inline tfp fs resolve step path b h1 h2]
  unfold Validation.StepValidator.validate_inline
  constructor
  · intro ha hb
    simp [VOut.errors_append, unknownKeyWarns_errors, ha, hb, errOut]
  · intro ha hb
    simp [VOut.errors_append, unknownKeyWarns_errors, ha, hb, errOut]

theorem C2_amended_witness :
    (Validation.StepValidator.validate_step none (fun _ => false) (fun _ => none)
      (.obj [("action", .str "tap"), ("assert", .str "visible")]) "p" false).errors =
      [⟨"p", "Step cannot have both 'action' and 'assert'", "error"⟩] :=
  (C2_amended_theorem none (fun _ => false) (fun _ => none)
    (.obj [("action", .str "tap"), ("assert", .str "visible")]) "p" false rfl rfl).1 rfl rfl

/-- C4 is false as stated: a `text` assertion step carrying `equals` is not
always valid — with the required parameter `id` absent, an error is still
appended. -/
theorem C4_counterexample :
    let out := Validation.StepValidator.validate_assertion
      (.obj [("assert", .str "text"), ("equals", .str "x")]) "p"
    out.errors ≠ [] ∧
    out.errors = [⟨"p", "Missing required parameter 'id' for assertion 'text'", "error"⟩] := by
  decide

/-- C4 (amended): for a step with `assert = "text"`: if neither `equals`
nor `contains` is present an error is always appended; if at least one of
them is present and the required parameter `id` is also present, the
assertion validator appends nothing at all. -/
theorem C4_amended_theorem (step : JValue) (path : String)
    (h : jGet "assert" step = some (.str "text")) :
    (hasKey "equals" step = false → hasKey "contains" step = false →
      (⟨path, "Text assertion must have 'equals' or 'contains'", "error"⟩ ∈
        (Validation.StepValidator.validate_assertion step path).errors)) ∧
    (hasKey "id" step = true →
      (hasKey "equals" step = true ∨ hasKey "contains" step = true) →
      Validation.StepValidator.validate_assertion step path = VOut.nil) := by
  have hspec : Validation.StepValidator.assertion_spec step = some ("text", ["id"]) := by
    unfold Validation.StepValidator.assertion_spec
    simp [jGetD, h]
    rfl
  unfold Validation.StepValidator.validate_assertion
  rw [hspec]
  constructor
  · intro he hc
    simp [VOut.errors_append, he, hc, errOut]
  · intro hid hor
    have : (!hasKey "equals" step && !hasKey "contains" step) = false := by
      rcases hor with h2 | h2 <;> simp [h2]
    simp [VOut.errors_append, hid, this, VOut.nil, VOut.append_def]

theorem C4_amended_witness :
    (⟨"p", "Text assertion must have 'equals' or 'contains'", "error"⟩ ∈
      (Validation.StepValidator.validate_assertion
        (.obj [("assert", .str "text"), ("id", .str "i")]) "p").errors) ∧
    Validation.StepValidator.validate_assertion
      (.obj [("assert", .str "text"), ("id", .str "i"), ("equals", .str "x")]) "p" = VOut.nil :=
  ⟨(C4_amended_theorem (.obj [("assert", .str "text"), ("id", .str "i")]) "p" rfl).1 rfl rfl,
   (C4_amended_theorem (.obj [("assert", .str "text"), ("id", .str "i"), ("equals", .str "x")])
      "p" rfl).2 rfl (Or.inl rfl)⟩

/-- C1: the claimed validation of a flow file-reference step's `args` key
(flat map of primitives; "not defined in screen" for keys without defaults)
is implemented nowhere in the source: `_validate_file_step` (in both
implementations) treats `args` as an unknown key and appends only a
warning, so a flow whose file step carries `args: "invalid"` is reported
valid — contradicting the repository's own tests
(`test_flow_file_step_args_not_dict_fails` expects an
"must be an object/dictionary" error on exactly this input). -/
theorem C1_flow_file_args_not_validated :
    let doc : JValue := .obj [("type", .str "flow"), ("metadata", .obj [("name", .str "f")]),
      ("steps", .arr [.obj [("file", .str "login"), ("case", .str "input"),
        ("args", .str "invalid")]])]
    (Validation.TestValidator.validate_data none (fun _ => false) doc "test").errors = [] ∧
    (Validation.TestValidator.validate_data none (fun _ => false) doc "test").is_valid = true ∧
    (Validation.TestValidator.validate_data none (fun _ => false) doc "test").warnings =
      [⟨"test.steps[0]", "Unknown key in file step: args", "warning"⟩] ∧
    (Validator.validate_data none (fun _ => false) doc "test").errors = [] := by
  decide

/-- C5: a screen-test case whose keys all belong to the documented Case
shape (`name`, `description`, `descriptionFile`, `args`, `steps`) does
produce an "Unknown case key" warning, because `VALID_CASE_KEYS` in
`schema.py` omits `args` and `descriptionFile` even though the case
validator handles both keys specially. -/
theorem C5_documented_case_keys_warn :
    let case_ : JValue := .obj [("name", .str "c"), ("description", .str "d"),
      ("args", .obj [("x", .str "1")]), ("steps", .arr [.obj [("action", .str "back")]])]
    let out := Validation.ScreenTestValidator.validate_case none (fun _ => false) case_ "p"
    (∀ k ∈ jKeys case_, k ∈ ["name", "description", "descriptionFile", "args", "steps"]) ∧
    (⟨"p", "Unknown case key: args", "warning"⟩ ∈ out.warnings) ∧
    out.errors = [] := by
  decide

/-- C9: with `is_flow=false`, a step with a `file` key yields exactly the
single error "File reference steps are only allowed in flow tests" and
nothing else (no further checks), a step with a `block` key (and no `file`
key) yields exactly the single error "Block steps are only allowed in flow
tests"; with `is_flow=true` the identical steps never produce either
message as an error. -/
theorem C9_file_block_flow_only (tfp : Option PathT) (fs : PathT → Bool)
    (resolve : String → Option PathT) (step : JValue) (path : String) :
    (hasKey "file" step = true →
      Validation.StepValidator.validate_step tfp fs resolve step path false =
        ⟨[⟨path, "File reference steps are only allowed in flow tests", "error"⟩], []⟩) ∧
    (hasKey "file" step = false → hasKey "block" step = true →
      Validation.StepValidator.validate_step tfp fs resolve step path false =
        ⟨[⟨path, "Block steps are only allowed in flow tests", "error"⟩], []⟩) ∧
    (hasKey "file" step = true →
      ∀ m ∈ (Validation.StepValidator.validate_step tfp fs resolve step path true).errors,
        m.message ≠ "File reference steps are only allowed in flow tests" ∧
        m.message ≠ "Block steps are only allowed in flow tests") ∧
    (hasKey "file" step = false → hasKey "block" step = true →
      ∀ m ∈ (Validation.StepValidator.validate_step tfp fs resolve step path true).errors,
        m.message ≠ "File reference steps are only allowed in flow tests" ∧
        m.message ≠ "Block steps are only allowed in flow tests") := by
  refine ⟨?_, ?_, ?_, ?_⟩
  · intro hf
    simp [Validation.StepValidator.validate_step, hf, errOut]
  · intro hf hb
    simp [Validation.StepValidator.validate_step, hf, hb, errOut]
  · intro hf m hm
    have hm2 : m ∈ (Validation.StepValidator.validate_file_step fs resolve step path).errors := by
      simpa [Validation.StepValidator.validate_step, hf] using hm
    have hform := Validation.StepValidator.validate_file_step_msg_form fs resolve step path m hm2
    exact ⟨hform.ne_fixed _ (by decide), hform.ne_fixed _ (by decide)⟩
  · intro hf hb m hm
    have hm2 : m ∈ (Validation.StepValidator.validate_block_step tfp fs step path).errors := by
      simpa [Validation.StepValidator.validate_step, hf, hb] using hm
    have hform := Validation.StepValidator.validate_block_step_msg_form tfp fs step path m hm2
    exact ⟨hform.ne_fixed _ (by decide), hform.ne_fixed _ (by decide)⟩

theorem C9_witness :
    (Validation.StepValidator.validate_step none (fun _ => false) (fun _ => none)
      (.obj [("file", .str "login")]) "p" false =
        ⟨[⟨"p", "File reference steps are only allowed in flow tests", "error"⟩], []⟩) ∧
    (Validation.StepValidator.validate_step none (fun _ => false) (fun _ => none)
      (.obj [("block", .str "b")]) "p" false =
        ⟨[⟨"p", "Block steps are only allowed in flow tests", "error"⟩], []⟩) :=
  ⟨(C9_file_block_flow_only none (fun _ => false) (fun _ => none)
      (.obj [("file", .str "login")]) "p").1 rfl,
   (C9_file_block_flow_only none (fun _ => false) (fun _ => none)
      (.obj [("block", .str "b")]) "p").2.1 rfl rfl⟩

/-- The file-existence part of `_validate_file_step` never appends
errors. -/
theorem resolution_part_errors (fs : PathT → Bool) (res : String → Option PathT)
    (f path : String) :
    ((match res f with
      | some rp =>
          if fs rp then VOut.nil
          else warnOut path ("Referenced test file not found: " ++ f ++
            " (looked for " ++ pathStr rp ++ ")")
      | none => VOut.nil) : VOut).errors = [] := by
  split
  · split <;> rfl
  · rfl

/-- The errors of `_validate_file_step` do not depend on the filesystem or
the resolver. -/
theorem validate_file_step_errors_resolver_free (fs fs2 : PathT → Bool)
    (res res2 : String → Option PathT) (step : JValue) (path : String) :
    (Validation.StepValidator.validate_file_step fs res step path).errors =
      (Validation.StepValidator.validate_file_step fs2 res2 step path).errors := by
  unfold Validation.StepValidator.validate_file_step
  cases hj : jGet "file" step with
  | none => rfl
  | some v =>
    cases v with
    | str s =>
      by_cases hs : pyStrip s = ""
      · simp [hs]
      · simp only [hs, if_false, VOut.errors_append,
          resolution_part_errors, List.append_nil]
    | int n => rfl
    | float q => rfl
    | bool b => rfl
    | null => rfl
    | arr l => rfl
    | obj o => rfl

/-- C8: for a file-reference step with a non-empty string `file` value,
when a test file path is set and none of the resolver's candidate paths
exists, validation appends exactly one extra warning ("Referenced test
file not found", pointing at the fallback `screens/<ref>/<ref>.test.json`
location) and the errors are the same as with no test file path set; the
errors do not depend on the filesystem or resolver at all, so validity is
unaffected by an unresolvable reference. -/
theorem C8_unresolvable_ref_warns (p : PathT) (fs fs2 : PathT → Bool)
    (resolve2 : String → Option PathT) (step : JValue) (path f : String)
    (h1 : jGet "file" step = some (.str f))
    (h2 : pyStrip f ≠ "")
    (h3 : ∀ c ∈ Validation.StepValidator.resolve_candidates p f, fs c = false) :
    Validation.StepValidator.validate_file_step fs
        (Validation.StepValidator.resolve_file_reference (some p) fs) step path =
      Validation.StepValidator.validate_file_step fs (fun _ => none) step path ++
        ⟨[], [⟨path, "Referenced test file not found: " ++ f ++ " (looked for " ++
          pathStr (Validation.StepValidator.tests_root_of p.dropLast ++
            ["screens", f, f ++ ".test.json"]) ++ ")", "warning"⟩]⟩ ∧
    (Validation.StepValidator.validate_file_step fs
        (Validation.StepValidator.resolve_file_reference (some p) fs) step path).errors =
      (Validation.StepValidator.validate_file_step fs2 resolve2 step path).errors := by
  constructor
  · have hfind : (Validation.StepValidator.resolve_candidates p f).find? fs = none :=
      List.find?_eq_none.mpr (fun x hx => by simp [h3 x hx])
    have hres : Validation.StepValidator.resolve_file_reference (some p) fs f =
        some (Validation.StepValidator.tests_root_of p.dropLast ++
          ["screens", f, f ++ ".test.json"]) := by
      unfold Validation.StepValidator.resolve_file_reference
      simp [hfind]
    have hfsdef : fs (Validation.StepValidator.tests_root_of p.dropLast ++
        ["screens", f, f ++ ".test.json"]) = false := by
      apply h3
      simp [Validation.StepValidator.resolve_candidates]
    unfold Validation.StepValidator.validate_file_step
    simp only [h1, h2, if_false, hres, hfsdef]
    simp [VOut.append_def, warnOut, VOut.nil]
  · exact validate_file_step_errors_resolver_free fs fs2 _ resolve2 step path

theorem C8_witness :
    Validation.StepValidator.validate_file_step (fun _ => false)
      (Validation.StepValidator.resolve_file_reference
        (some ["tests", "flows", "f.test.json"]) (fun _ => false))
      (.obj [("file", .str "login")]) "p" =
    ⟨[], [⟨"p",
      "Referenced test file not found: login (looked for tests/screens/login/login.test.json)",
      "warning"⟩]⟩ := by
  have h := C8_unresolvable_ref_warns ["tests", "flows", "f.test.json"]
    (fun _ => false) (fun _ => false) (fun _ => none)
    (.obj [("file", .str "login")]) "p" "login" rfl (by decide) (fun c hc => rfl)
  rw [h.1]
  decide

/-- C7: flow-test `setup` and `teardown` steps are never passed to the
step validator — the document's errors are exactly those of the
`steps`-only validation, the warnings are the pre-scan's path-separator
warnings for `setup + steps + teardown` followed by the `steps`-only
warnings, and each `setup`/`teardown` step contributes either nothing or
exactly its one path-separator warning (when its `file` value contains
`/` or `\`), however malformed the step otherwise is. -/
theorem C7_setup_teardown_not_validated (tfp : Option PathT) (fs : PathT → Bool)
    (data : JValue) (path : String) (ss ts : List JValue)
    (h1 : jGet "setup" data = some (.arr ss))
    (h2 : jGet "teardown" data = some (.arr ts))
    (hok : ∀ s ∈ ss ++ ts, Validation.FlowTestValidator.scan_ok s = true) :
    (Validation.FlowTestValidator.validate tfp fs data path).errors =
      (Validation.FlowTestValidator.validate_steps tfp fs data path).errors ∧
    (Validation.FlowTestValidator.validate tfp fs data path).warnings =
      (ss.flatMap (Validation.FlowTestValidator.sep_scan path) ++
       (pyEnumerate (jGetD data "steps" (.arr []))).flatMap
         (Validation.FlowTestValidator.sep_scan path) ++
       ts.flatMap (Validation.FlowTestValidator.sep_scan path)) ++
      (Validation.FlowTestValidator.validate_steps tfp fs data path).warnings ∧
    (∀ s ∈ ss ++ ts,
      (Validation.FlowTestValidator.sep_scan path s = [] ∧
        ∀ g, jGet "file" s = some (.str g) →
          g.data.contains '/' = false ∧ g.data.contains '\\' = false) ∨
      (∃ g, jGet "file" s = some (.str g) ∧
        (g.data.contains '/' || g.data.contains '\\') = true ∧
        Validation.FlowTestValidator.sep_scan path s =
          [⟨path ++ ".steps", Validation.FlowTestValidator.sepWarnMsg g, "warning"⟩])) := by
  refine ⟨rfl, ?_, ?_⟩
  · show (Validation.FlowTestValidator.check_subdirectory_references data path).warnings ++ _ = _
    unfold Validation.FlowTestValidator.check_subdirectory_references
    simp only [jGetD, h1, h2, Option.getD_some, pyEnumerate, List.flatMap_append]
  · intro s hs
    have hoks := hok s hs
    cases s with
    | obj fields =>
      cases hl : jLookup "file" fields with
      | none =>
        left
        constructor
        · simp [Validation.FlowTestValidator.sep_scan, hl]
        · intro g hg
          simp [jGet, hl] at hg
      | some v =>
        cases v with
        | str g =>
          by_cases hsep : (g.data.contains '/' || g.data.contains '\\') = true
          · right
            refine ⟨g, by simp [jGet, hl], hsep, ?_⟩
            simp only [Validation.FlowTestValidator.sep_scan, hl]
            split
            · rfl
            · next hfalse => exact absurd hsep hfalse
          · left
            constructor
            · simp only [Validation.FlowTestValidator.sep_scan, hl]
              split
              · next htrue => exact absurd htrue hsep
              · rfl
            · intro g2 hg2
              simp only [jGet, hl, Option.some.injEq, JValue.str.injEq] at hg2
              subst hg2
              rw [Bool.or_eq_true] at hsep
              constructor
              · cases hcg : g.data.contains '/' with
                | false => rfl
                | true => exact absurd (Or.inl hcg) hsep
              · cases hcg : g.data.contains '\\' with
                | false => rfl
                | true => exact absurd (Or.inr hcg) hsep
        | int n => simp [Validation.FlowTestValidator.scan_ok, hl] at hoks
        | float q => simp [Validation.FlowTestValidator.scan_ok, hl] at hoks
        | bool b => simp [Validation.FlowTestValidator.scan_ok, hl] at hoks
        | null => simp [Validation.FlowTestValidator.scan_ok, hl] at hoks
        | arr l => simp [Validation.FlowTestValidator.scan_ok, hl] at hoks
        | obj o => simp [Validation.FlowTestValidator.scan_ok, hl] at hoks
    | str s2 => simp [Validation.FlowTestValidator.scan_ok] at hoks
    | int n => simp [Validation.FlowTestValidator.scan_ok] at hoks
    | float q => simp [Validation.FlowTestValidator.scan_ok] at hoks
    | bool b => simp [Validation.FlowTestValidator.scan_ok] at hoks
    | null => simp [Validation.FlowTestValidator.scan_ok] at hoks
    | arr l => simp [Validation.FlowTestValidator.scan_ok] at hoks

theorem C7_witness :
    (Validation.FlowTestValidator.validate none (fun _ => false)
      (.obj [("type", .str "flow"),
        ("setup", .arr [.obj [("bogus", .str "x")], .obj [("file", .str "screens/login")]]),
        ("steps", .arr [.obj [("action", .str "back")]]),
        ("teardown", .arr [.obj []])]) "t").errors =
    (Validation.FlowTestValidator.validate_steps none (fun _ => false)
      (.obj [("type", .str "flow"),
        ("setup", .arr [.obj [("bogus", .str "x")], .obj [("file", .str "screens/login")]]),
        ("steps", .arr [.obj [("action", .str "back")]]),
        ("teardown", .arr [.obj []])]) "t").errors :=
  (C7_setup_teardown_not_validated none (fun _ => false)
    (.obj [("type", .str "flow"),
      ("setup", .arr [.obj [("bogus", .str "x")], .obj [("file", .str "screens/login")]]),
      ("steps", .arr [.obj [("action", .str "back")]]),
      ("teardown", .arr [.obj []])]) "t"
    [.obj [("bogus", .str "x")], .obj [("file", .str "screens/login")]]
    [.obj []] rfl rfl (by decide)).1

/-- `if`-guarded warnings carry no errors. -/
theorem if_warn_errors (c : Prop) [Decidable c] (path msg : String) :
    (if c then VOut.nil else warnOut path msg).errors = [] := by
  split <;> rfl

namespace Validation

namespace ScreenTestValidator

theorem insertSorted_perm (x : String) (l : List String) :
    (insertSorted x l).Perm (x :: l) := by
  induction l with
  | nil => simp [insertSorted]
  | cons y ys ih =>
    simp only [insertSorted]
    split
    · exact List.Perm.refl _
    · exact (List.Perm.cons y ih).trans (List.Perm.swap x y ys)

theorem pySorted_perm (l : List String) : (pySorted l).Perm l := by
  induction l with
  | nil => simp [pySorted]
  | cons x xs ih =>
    simp only [pySorted]
    exact (insertSorted_perm x (pySorted xs)).trans (List.Perm.cons x ih)

theorem undefinedArgMsg_inj {a b : String} (h : undefinedArgMsg a = undefinedArgMsg b) :
    a = b := by
  unfold undefinedArgMsg at h
  exact str_append_left_cancel (str_append_right_cancel h)

/-- Error-message forms of the `args` block of `_validate_case`. -/
def case_args_error_prefixes : List String :=
  ["'args' must be an object/dictionary",
   "Argument value must be a primitive type (string, number, boolean), got: "]

theorem validate_case_args_msg_form (case_ : JValue) (path : String)
    (m : ValidationMessage) (hm : m ∈ (validate_case_args case_ path).errors) :
    MsgHasForm case_args_error_prefixes m.message := by
  unfold validate_case_args at hm
  split at hm
  · cases hm
  · simp only [List.mem_filterMap] at hm
    obtain ⟨kv, _, hkv⟩ := hm
    split at hkv
    · cases hkv
    · simp only [Option.some.injEq] at hkv
      subst hkv
      exact msgHasForm_single _ (by simp [case_args_error_prefixes]) _
  · simp only [errOut, List.mem_singleton] at hm
    subst hm
    exact msgHasForm_fixed _ (by simp [case_args_error_prefixes])

/-- The per-step validation of a case's `steps`, as performed inside
`_validate_case`. -/
def case_steps_out (tfp : Option PathT) (fs : PathT → Bool)
    (case_ : JValue) (path : String) : VOut :=
  idxJoin (fun i s =>
    Validation.StepValidator.validate_step tfp fs
      (Validation.StepValidator.resolve_file_reference tfp fs) s
      (path ++ ".steps[" ++ toString i ++ "]") false) 0
    (pyEnumerate (jGetD case_ "steps" (.arr [])))

/-- The errors of `_validate_case` come from the `name` check, the `args`
block, the per-step validation, and the undefined-placeholder block, in
that order; all other parts of the method only warn. -/
theorem validate_case_errors_decomp (tfp : Option PathT) (fs : PathT → Bool)
    (case_ : JValue) (path : String) :
    (validate_case tfp fs case_ path).errors =
      ((if hasKey "name" case_ then VOut.nil
        else errOut path "Test case missing 'name' field").errors ++
       ((validate_case_args case_ path).errors ++
        ((case_steps_out tfp fs case_ path).errors ++
         undefined_args_errors case_ (pyEnumerate (jGetD case_ "steps" (.arr []))) path))) := by
  simp only [validate_case, case_steps_out, VOut.errors_append, unknownKeyWarns_errors,
    Validation.StepValidator.description_file_check_errors, if_warn_errors,
    List.nil_append, List.append_nil, List.append_assoc]

end ScreenTestValidator

end Validation

namespace Validation

namespace ScreenTestValidator

/-- A message of one of the given forms is never an undefined-placeholder
error, provided every form prefix is incompatible with the latter's fixed
prefix. -/
theorem ne_undefinedArgMsg_of_form {m : String} {ps : List String}
    (hform : MsgHasForm ps m)
    (hinc : ∀ p ∈ ps, incompat p.data ("Undefined argument '@\x7b").data = true)
    (k : String) : m ≠ undefinedArgMsg k := by
  have hne := hform.ne_append "Undefined argument '@\x7b"
    (k ++ ("\x7d' used in steps but not defined in 'args'")) hinc
  intro h
  apply hne
  rw [h]
  simp [undefinedArgMsg, String.append_assoc]

/-- No error produced by the parts of `_validate_case` other than its
final undefined-placeholder block has the undefined-placeholder message
shape. -/
theorem case_pre_member_ne_undef (tfp : Option PathT) (fs : PathT → Bool)
    (case_ : JValue) (path : String) (m : ValidationMessage)
    (hm : m ∈ (if hasKey "name" case_ then VOut.nil
            else errOut path "Test case missing 'name' field").errors ∨
          m ∈ (validate_case_args case_ path).errors ∨
          m ∈ (case_steps_out tfp fs case_ path).errors) (k : String) :
    m.message ≠ undefinedArgMsg k := by
  rcases hm with hm | hm | hm
  · split at hm
    · cases hm
    · simp only [errOut, List.mem_singleton] at hm
      subst hm
      exact ne_undefinedArgMsg_of_form
        (msgHasForm_fixed ["Test case missing 'name' field"] (by simp)) (by decide) k
  · exact ne_undefinedArgMsg_of_form (validate_case_args_msg_form case_ path m hm)
      (by decide) k
  · obtain ⟨i, s, _, hms⟩ := idxJoin_errors_mem _ _ m hm
    exact ne_undefinedArgMsg_of_form
      (Validation.StepValidator.validate_step_msg_form _ _ _ _ _ _ m hms) (by decide) k

end ScreenTestValidator

end Validation

/-- C3: for a screen-test case with an `args` map and a `steps` array,
every distinct `@\x7bname\x7d` placeholder occurring in any string value
anywhere under `steps` whose name is not a key of `args` produces exactly
one undefined-placeholder error naming it, and if every used placeholder
name is a key of `args`, no error of the case validation has the
undefined-placeholder shape at all. -/
theorem C3_undefined_placeholder_errors (tfp : Option PathT) (fs : PathT → Bool)
    (case_ : JValue) (path : String) (kvs : List (String × JValue))
    (stepsL : List JValue) (n : String)
    (hargs : jGet "args" case_ = some (.obj kvs))
    (hsteps : jGet "steps" case_ = some (.arr stepsL)) :
    (n ∈ (Validation.ScreenTestValidator.extract_used_args stepsL).dedup →
      (kvs.map Prod.fst).contains n = false →
      ((Validation.ScreenTestValidator.validate_case tfp fs case_ path).errors.filter
        (fun m => m.message == Validation.ScreenTestValidator.undefinedArgMsg n)).length = 1) ∧
    ((∀ k ∈ (Validation.ScreenTestValidator.extract_used_args stepsL).dedup,
        (kvs.map Prod.fst).contains k = true) →
      ∀ m ∈ (Validation.ScreenTestValidator.validate_case tfp fs case_ path).errors,
        ∀ k, m.message ≠ Validation.ScreenTestValidator.undefinedArgMsg k) := by
  have hgd : jGetD case_ "steps" (.arr []) = .arr stepsL := by simp [jGetD, hsteps]
  have hundef : Validation.ScreenTestValidator.undefined_args_errors case_
      (pyEnumerate (jGetD case_ "steps" (.arr []))) path =
    (Validation.ScreenTestValidator.pySorted
      (((Validation.ScreenTestValidator.extract_used_args stepsL).dedup).filter
        (fun k => !(kvs.map Prod.fst).contains k))).map
      (fun k => ⟨path, Validation.ScreenTestValidator.undefinedArgMsg k, "error"⟩) := by
    rw [hgd]
    simp only [Validation.ScreenTestValidator.undefined_args_errors, hargs, pyEnumerate]
  constructor
  · intro hn hnotin
    rw [Validation.ScreenTestValidator.validate_case_errors_decomp, hundef,
      List.filter_append, List.filter_append, List.filter_append,
      List.length_append, List.length_append, List.length_append]
    have hp1 : ∀ (l : List ValidationMessage),
        (∀ m ∈ l, m.message ≠ Validation.ScreenTestValidator.undefinedArgMsg n) →
        (l.filter (fun m =>
          m.message == Validation.ScreenTestValidator.undefinedArgMsg n)).length = 0 := by
      intro l hl
      simp only [List.length_eq_zero, List.filter_eq_nil_iff]
      intro m hm
      simp [hl m hm]
    rw [hp1 _ (fun m hm => Validation.ScreenTestValidator.case_pre_member_ne_undef
          tfp fs case_ path m (Or.inl hm) n),
        hp1 _ (fun m hm => Validation.ScreenTestValidator.case_pre_member_ne_undef
          tfp fs case_ path m (Or.inr (Or.inl hm)) n),
        hp1 _ (fun m hm => Validation.ScreenTestValidator.case_pre_member_ne_undef
          tfp fs case_ path m (Or.inr (Or.inr hm)) n)]
    simp only [Nat.zero_add]
    rw [List.filter_map, List.length_map]
    have hcong : List.filter
        ((fun m => m.message == Validation.ScreenTestValidator.undefinedArgMsg n) ∘
          (fun k => (⟨path, Validation.ScreenTestValidator.undefinedArgMsg k, "error"⟩ :
            ValidationMessage)))
        (Validation.ScreenTestValidator.pySorted
          (((Validation.ScreenTestValidator.extract_used_args stepsL).dedup).filter
            (fun k => !(kvs.map Prod.fst).contains k))) =
      List.filter (fun k => k == n)
        (Validation.ScreenTestValidator.pySorted
          (((Validation.ScreenTestValidator.extract_used_args stepsL).dedup).filter
            (fun k => !(kvs.map Prod.fst).contains k))) := by
      apply List.filter_congr
      intro k _
      by_cases hk : k = n
      · subst hk; simp
      · have h1 : (Validation.ScreenTestValidator.undefinedArgMsg k ==
            Validation.ScreenTestValidator.undefinedArgMsg n) = false := by
          rw [beq_eq_false_iff_ne]
          exact fun hh => hk (Validation.ScreenTestValidator.undefinedArgMsg_inj hh)
        have h2 : (k == n) = false := by rw [beq_eq_false_iff_ne]; exact hk
        simpa [Function.comp, h2] using h1
    rw [hcong]
    have hcount : (List.filter (fun k => k == n)
        (Validation.ScreenTestValidator.pySorted
          (((Validation.ScreenTestValidator.extract_used_args stepsL).dedup).filter
            (fun k => !(kvs.map Prod.fst).contains k)))).length =
      List.count n (Validation.ScreenTestValidator.pySorted
        (((Validation.ScreenTestValidator.extract_used_args stepsL).dedup).filter
          (fun k => !(kvs.map Prod.fst).contains k))) := by
      rw [List.count, List.countP_eq_length_filter]
    rw [hcount, (Validation.ScreenTestValidator.pySorted_perm _).count_eq]
    have hmem : n ∈ ((Validation.ScreenTestValidator.extract_used_args stepsL).dedup).filter
        (fun k => !(kvs.map Prod.fst).contains k) :=
      List.mem_filter.mpr ⟨hn, by rw [hnotin]; rfl⟩
    have hnd : (((Validation.ScreenTestValidator.extract_used_args stepsL).dedup).filter
        (fun k => !(kvs.map Prod.fst).contains k)).Nodup :=
      (List.nodup_dedup _).filter _
    exact List.count_eq_one_of_mem hnd hmem
  · intro hall m hm k
    rw [Validation.ScreenTestValidator.validate_case_errors_decomp, hundef] at hm
    have hLnil : ((Validation.ScreenTestValidator.extract_used_args stepsL).dedup).filter
        (fun k => !(kvs.map Prod.fst).contains k) = [] :=
      List.filter_eq_nil_iff.mpr (fun x hx => by rw [hall x hx]; simp)
    rw [hLnil] at hm
    simp only [Validation.ScreenTestValidator.pySorted, List.map_nil, List.append_nil,
      List.mem_append] at hm
    rcases hm with hm | hm | hm
    · exact Validation.ScreenTestValidator.case_pre_member_ne_undef
        tfp fs case_ path m (Or.inl hm) k
    · exact Validation.ScreenTestValidator.case_pre_member_ne_undef
        tfp fs case_ path m (Or.inr (Or.inl hm)) k
    · exact Validation.ScreenTestValidator.case_pre_member_ne_undef
        tfp fs case_ path m (Or.inr (Or.inr hm)) k

theorem C3_witness :
    ((Validation.ScreenTestValidator.validate_case none (fun _ => false)
      (.obj [("name", .str "c"), ("description", .str "d"),
        ("args", .obj [("userName", .str "u")]),
        ("steps", .arr [.obj [("action", .str "input"), ("id", .str "f"),
          ("value", .str "@\x7bpassword\x7d")]])]) "p").errors.filter
      (fun m => m.message ==
        Validation.ScreenTestValidator.undefinedArgMsg "password")).length = 1 :=
  (C3_undefined_placeholder_errors none (fun _ => false)
    (.obj [("name", .str "c"), ("description", .str "d"),
      ("args", .obj [("userName", .str "u")]),
      ("steps", .arr [.obj [("action", .str "input"), ("id", .str "f"),
        ("value", .str "@\x7bpassword\x7d")]])]) "p"
    [("userName", .str "u")]
    [.obj [("action", .str "input"), ("id", .str "f"),
      ("value", .str "@\x7bpassword\x7d")]] "password" rfl rfl).1 (by decide) rfl

/-!
C6: comparison of the monolithic and modular validators.
-/

theorem VOut.append_mk_nil (a : VOut) : a ++ (⟨[], []⟩ : VOut) = a :=
  VOut.append_nil a

theorem validate_file_step_resolve_congr (fs : PathT → Bool)
    (res1 res2 : String → Option PathT) (s : JValue) (p : String)
    (h : ∀ r, res1 r = res2 r) :
    Validation.StepValidator.validate_file_step fs res1 s p =
      Validation.StepValidator.validate_file_step fs res2 s p := by
  unfold Validation.StepValidator.validate_file_step
  simp only [h]

theorem validate_step_resolve_congr (tfp : Option PathT) (fs : PathT → Bool)
    (res1 res2 : String → Option PathT) (s : JValue) (p : String) (b : Bool)
    (h : ∀ r, res1 r = res2 r) :
    Validation.StepValidator.validate_step tfp fs res1 s p b =
      Validation.StepValidator.validate_step tfp fs res2 s p b := by
  unfold Validation.StepValidator.validate_step
  rw [validate_file_step_resolve_congr fs res1 res2 s p h]

/-- With no test file path set, both implementations' resolvers answer
`none` on every reference. -/
theorem resolvers_none_agree (fs : PathT → Bool) (r : String) :
    Validator.resolve_file_reference none fs r =
      Validation.StepValidator.resolve_file_reference none fs r := rfl

/-- With no test file path set and a case with no `args` key and no
placeholder occurrences in its steps, the monolithic and the modular case
validators agree. -/
theorem case_equiv (fs : PathT → Bool) (case_ : JValue) (path : String)
    (h1 : hasKey "args" case_ = false)
    (h2 : Validation.ScreenTestValidator.extract_used_args
      (pyEnumerate (jGetD case_ "steps" (.arr []))) = []) :
    Validator.validate_case none fs case_ path =
      Validation.ScreenTestValidator.validate_case none fs case_ path := by
  have hargsnone : jGet "args" case_ = none := by
    cases hj : jGet "args" case_ with
    | none => rfl
    | some v => rw [hasKey, hj] at h1; simp at h1
  have hargsnil : Validation.ScreenTestValidator.validate_case_args case_ path = VOut.nil := by
    unfold Validation.ScreenTestValidator.validate_case_args
    rw [hargsnone]
  have h0 : Validation.ScreenTestValidator.undefined_args_errors case_
      (pyEnumerate (jGetD case_ "steps" (.arr []))) path = [] := by
    unfold Validation.ScreenTestValidator.undefined_args_errors
    rw [h2]
    simp [Validation.ScreenTestValidator.pySorted]
  have hundefnil : (⟨Validation.ScreenTestValidator.undefined_args_errors case_
      (pyEnumerate (jGetD case_ "steps" (.arr []))) path, []⟩ : VOut) = VOut.nil := by
    rw [h0]; rfl
  have hjoin : idxJoin (fun i s =>
      Validation.StepValidator.validate_step none fs
        (Validation.StepValidator.resolve_file_reference none fs) s
        (path ++ ".steps[" ++ toString i ++ "]") false) 0
      (pyEnumerate (jGetD case_ "steps" (.arr []))) =
    idxJoin (fun i s =>
      Validation.StepValidator.validate_step none fs
        (Validator.resolve_file_reference none fs) s
        (path ++ ".steps[" ++ toString i ++ "]") false) 0
      (pyEnumerate (jGetD case_ "steps" (.arr []))) :=
    idxJoin_congr _ _ (fun i s _ => validate_step_resolve_congr none fs _ _ s _ false
      (fun r => (resolvers_none_agree fs r).symm))
  simp only [Validator.validate_case, Validation.ScreenTestValidator.validate_case]
  rw [hargsnil, hundefnil, hjoin, VOut.append_nil, VOut.append_nil]

/-- With no test file path set, no top-level `source` key, and every case
free of `args` and placeholders, the monolithic and the modular screen-test
validators agree. -/
theorem screen_equiv (fs : PathT → Bool) (data : JValue) (path : String)
    (hsrc : hasKey "source" data = false)
    (hcases : ∀ c ∈ pyEnumerate (jGetD data "cases" (.arr [])),
      hasKey "args" c = false ∧
      Validation.ScreenTestValidator.extract_used_args
        (pyEnumerate (jGetD c "steps" (.arr []))) = []) :
    Validator.validate_screen_test none fs data path =
      Validation.ScreenTestValidator.validate none fs data path := by
  have hsrcnone : jGet "source" data = none := by
    cases hj : jGet "source" data with
    | none => rfl
    | some v => rw [hasKey, hj] at hsrc; simp at hsrc
  have hjc : idxJoin (fun i c =>
      Validation.ScreenTestValidator.validate_case none fs c
        (path ++ ".cases[" ++ toString i ++ "]")) 0
      (pyEnumerate (jGetD data "cases" (.arr []))) =
    idxJoin (fun i c =>
      Validator.validate_case none fs c (path ++ ".cases[" ++ toString i ++ "]")) 0
      (pyEnumerate (jGetD data "cases" (.arr []))) :=
    idxJoin_congr _ _ (fun i c hc =>
      (case_equiv fs c _ (hcases c hc).1 (hcases c hc).2).symm)
  have hsu : idxJoin (fun i s =>
      Validation.StepValidator.validate_step none fs
        (Validation.StepValidator.resolve_file_reference none fs) s
        (path ++ ".setup[" ++ toString i ++ "]") false) 0
      (pyEnumerate (jGetD data "setup" .null)) =
    idxJoin (fun i s =>
      Validation.StepValidator.validate_step none fs
        (Validator.resolve_file_reference none fs) s
        (path ++ ".setup[" ++ toString i ++ "]") false) 0
      (pyEnumerate (jGetD data "setup" .null)) :=
    idxJoin_congr _ _ (fun i s _ => validate_step_resolve_congr none fs _ _ s _ false
      (fun r => (resolvers_none_agree fs r).symm))
  have htd : idxJoin (fun i s =>
      Validation.StepValidator.validate_step none fs
        (Validation.StepValidator.resolve_file_reference none fs) s
        (path ++ ".teardown[" ++ toString i ++ "]") false) 0
      (pyEnumerate (jGetD data "teardown" .null)) =
    idxJoin (fun i s =>
      Validation.StepValidator.validate_step none fs
        (Validator.resolve_file_reference none fs) s
        (path ++ ".teardown[" ++ toString i ++ "]") false) 0
      (pyEnumerate (jGetD data "teardown" .null)) :=
    idxJoin_congr _ _ (fun i s _ => validate_step_resolve_congr none fs _ _ s _ false
      (fun r => (resolvers_none_agree fs r).symm))
  simp only [Validator.validate_screen_test, Validation.ScreenTestValidator.validate,
    hsrcnone]
  rw [hjc, hsu, htd, VOut.append_nil]

/-- With no test file path set and a silent subdirectory pre-scan, the
monolithic and the modular flow-test validators agree. -/
theorem flow_equiv (fs : PathT → Bool) (data : JValue) (path : String)
    (hpre : Validation.FlowTestValidator.check_subdirectory_references data path = VOut.nil) :
    Validator.validate_flow_test none fs data path =
      Validation.FlowTestValidator.validate none fs data path := by
  unfold Validation.FlowTestValidator.validate
  rw [hpre, VOut.nil_append]
  have hjoin : idxJoin (fun i s =>
      Validation.StepValidator.validate_step none fs
        (Validation.StepValidator.resolve_file_reference none fs) s
        (path ++ ".steps[" ++ toString i ++ "]") true) 0
      (pyEnumerate (jGetD data "steps" (.arr []))) =
    idxJoin (fun i s =>
      Validation.StepValidator.validate_step none fs
        (Validator.resolve_file_reference none fs) s
        (path ++ ".steps[" ++ toString i ++ "]") true) 0
      (pyEnumerate (jGetD data "steps" (.arr []))) :=
    idxJoin_congr _ _ (fun i s _ => validate_step_resolve_congr none fs _ _ s _ true
      (fun r => (resolvers_none_agree fs r).symm))
  simp only [Validator.validate_flow_test, Validation.FlowTestValidator.validate_steps]
  rw [hjoin]

/-- C6 is false as stated: the two `TestValidator` implementations differ.
On a screen test whose case uses an undefined `@\x7bname\x7d` placeholder,
the modular validator reports an undefined-argument error while the
monolithic one reports nothing. -/
theorem C6_counterexample :
    let doc : JValue := .obj [("type", .str "screen"),
      ("metadata", .obj [("name", .str "t")]),
      ("cases", .arr [.obj [("name", .str "c"), ("description", .str "d"),
        ("steps", .arr [.obj [("action", .str "tap"), ("id", .str "@\x7bx\x7d")]])]])]
    Validator.validate_data none (fun _ => false) doc "test" ≠
      Validation.TestValidator.validate_data none (fun _ => false) doc "test" ∧
    (Validator.validate_data none (fun _ => false) doc "test").errors = [] ∧
    (Validation.TestValidator.validate_data none (fun _ => false) doc "test").errors =
      [⟨"test.cases[0]", Validation.ScreenTestValidator.undefinedArgMsg "x", "error"⟩] := by
  decide

/-- C6 (amended): for fresh validator instances (no test file path), the
monolithic and the modular `validate_data` return equal results on every
document that avoids the modular-only checks: for screen tests, no
top-level `source` key and no case with an `args` key or a `@\x7bname\x7d`
placeholder in its steps; for flow tests, a subdirectory-reference
pre-scan that produces no warnings.  (On documents with `args` or
placeholders they disagree, per the counterexample.) -/
theorem C6_amended_theorem (fs : PathT → Bool) (data : JValue) (name : String)
    (hscreen : jGet "type" data = some (.str "screen") →
      hasKey "source" data = false ∧
      ∀ c ∈ pyEnumerate (jGetD data "cases" (.arr [])),
        hasKey "args" c = false ∧
        Validation.ScreenTestValidator.extract_used_args
          (pyEnumerate (jGetD c "steps" (.arr []))) = [])
    (hflow : jGet "type" data = some (.str "flow") →
      Validation.FlowTestValidator.check_subdirectory_references data name = VOut.nil) :
    Validator.validate_data none fs data name =
      Validation.TestValidator.validate_data none fs data name := by
  unfold Validator.validate_data Validation.TestValidator.validate_data
  have htest : Validator.validate_test none fs data name =
      Validation.TestValidator.validate_test none fs data name := by
    unfold Validator.validate_test Validation.TestValidator.validate_test
    cases hj : jGet "type" data with
    | none => rfl
    | some v =>
      cases v with
      | str t =>
        by_cases ht : t = "screen"
        · subst ht
          obtain ⟨hsrc, hcases⟩ := hscreen hj
          simp only [if_pos rfl]
          exact screen_equiv fs data name hsrc hcases
        · by_cases ht2 : t = "flow"
          · subst ht2
            simp only [ht, if_false, if_pos rfl]
            exact flow_equiv fs data name (hflow hj)
          · simp only [ht, ht2, if_false]
      | int n2 => rfl
      | float q => rfl
      | bool b => rfl
      | null => rfl
      | arr l => rfl
      | obj o => rfl
  rw [htest]

theorem C6_amended_witness :
    Validator.validate_data none (fun _ => false)
      (.obj [("type", .str "screen"), ("metadata", .obj [("name", .str "t")]),
        ("cases", .arr [.obj [("name", .str "c"), ("description", .str "d"),
          ("steps", .arr [.obj [("action", .str "back")]])]])]) "test" =
    Validation.TestValidator.validate_data none (fun _ => false)
      (.obj [("type", .str "screen"), ("metadata", .obj [("name", .str "t")]),
        ("cases", .arr [.obj [("name", .str "c"), ("description", .str "d"),
          ("steps", .arr [.obj [("action", .str "back")]])]])]) "test" :=
  C6_amended_theorem (fun _ => false)
    (.obj [("type", .str "screen"), ("metadata", .obj [("name", .str "t")]),
      ("cases", .arr [.obj [("name", .str "c"), ("description", .str "d"),
        ("steps", .arr [.obj [("action", .str "back")]])]])]) "test"
    (fun _ => ⟨rfl, by decide⟩)
    (fun _ => by decide)
